import Mathlib

/-!
Shallow embedding of the status-ingestion and state-projection core of the
Ai-Link A.O. Smith integration (custom_components/ailink_aosmith).

Python runtime values are modelled by the inductive type `Py`; Python dicts
appearing in this code always carry string keys (they come from JSON), so a
dict is a `List (String × Py)` with unique keys kept in insertion order.
Python exceptions are modelled by `PyExc`, and every embedded function that
can raise returns `Except PyExc _`.
-/

namespace AOSmith

/-- A Python runtime value, as used by the integration: `None`, booleans,
ints, finite floats (modelled by their exact decimal value as a rational —
IEEE rounding and overflow-to-infinity of decimal literals are outside the
model), the special floats nan, inf and -inf (which `json.loads` produces for
`NaN`, `Infinity` and `-Infinity`), strings, lists and string-keyed
dicts. -/
inductive Py where
  | pnone : Py
  | pbool (b : Bool) : Py
  | pint (n : Int) : Py
  | pfloat (q : ℚ) : Py
  | pnan : Py
  | pinf : Py
  | pninf : Py
  | pstr (s : String) : Py
  | plist (xs : List Py) : Py
  | pdict (kvs : List (String × Py)) : Py
deriving Repr

/-- A Python dict with string keys (the only kind appearing in this code). -/
abbrev PyDict := List (String × Py)

/-- Python exceptions raised by the embedded code. `nameErrorAsyncio` is the
`NameError` (the name asyncio is not defined) raised when an except clause of
api.py evaluates `asyncio.TimeoutError` (api.py never imports asyncio). -/
inductive PyExc where
  | attributeError : PyExc
  | typeError : PyExc
  | valueError : PyExc
  | jsonDecodeError : PyExc
  | timeoutError : PyExc
  | nameErrorAsyncio : PyExc
  | exception (msg : String) : PyExc
deriving Repr, DecidableEq

/-- Python truthiness of a value (`bool(v)`); nan and the infinities are
truthy. -/
def truthy : Py → Bool
  | .pnone => false
  | .pbool b => b
  | .pint n => n != 0
  | .pfloat q => q != 0
  | .pnan => true
  | .pinf => true
  | .pninf => true
  | .pstr s => s != ""
  | .plist xs => !xs.isEmpty
  | .pdict kvs => !kvs.isEmpty

/-- The numeric value of a Python number, if the value is one (`bool` counts:
Python `True == 1`). -/
def pyNum : Py → Option ℚ
  | .pbool b => some (if b then 1 else 0)
  | .pint n => some (n : ℚ)
  | .pfloat q => some q
  | _ => none

mutual

/-- Python `==` on runtime values: numbers (including bools) compare by
numeric value, strings by content, lists elementwise, dicts entrywise (the
code only ever compares hashable values, where this agrees with Python). -/
def pyBeq : Py → Py → Bool
  | .pnone, .pnone => true
  | .pstr a, .pstr b => a == b
  | .plist a, .plist b => pyBeqList a b
  | .pdict a, .pdict b => pyBeqKVs a b
  | .pinf, .pinf => true
  | .pninf, .pninf => true
  | a, b =>
    match pyNum a, pyNum b with
    | some x, some y => x == y
    | _, _ => false

/-- Elementwise Python `==` on lists. -/
def pyBeqList : List Py → List Py → Bool
  | [], [] => true
  | a :: as2, b :: bs => pyBeq a b && pyBeqList as2 bs
  | _, _ => false

/-- Entrywise Python `==` on dict entry lists. -/
def pyBeqKVs : List (String × Py) → List (String × Py) → Bool
  | [], [] => true
  | a :: as2, b :: bs => (a.1 == b.1) && pyBeq a.2 b.2 && pyBeqKVs as2 bs
  | _, _ => false

end

/-- `d.get(k)`: value of the first entry with key `k`, `None` if absent. -/
def dGet (kvs : PyDict) (k : String) : Py :=
  match kvs.find? (fun kv => kv.1 = k) with
  | some kv => kv.2
  | none => .pnone

/-- `d.get(k, default)`. -/
def dGetD (kvs : PyDict) (k : String) (dflt : Py) : Py :=
  match kvs.find? (fun kv => kv.1 = k) with
  | some kv => kv.2
  | none => dflt

/-- `k in d` for a dict. -/
def hasKey (kvs : PyDict) (k : String) : Bool :=
  kvs.any (fun kv => kv.1 = k)

/-- `d[k] = v`: replace the value in place if the key exists, else append
(the insertion-order semantics of a Python dict assignment). -/
def dSet (kvs : PyDict) (k : String) (v : Py) : PyDict :=
  if hasKey kvs k then
    kvs.map (fun kv => if kv.1 = k then (k, v) else kv)
  else
    kvs ++ [(k, v)]

/-- The elements produced by iterating a Python value (`for x in v`): list
elements, string characters, dict keys; `TypeError` otherwise. -/
def pyIterElems (v : Py) : Except PyExc (List Py) :=
  match v with
  | .plist xs => .ok xs
  | .pstr s => .ok (s.toList.map (fun c => .pstr (String.mk [c])))
  | .pdict d => .ok (d.map (fun kv => .pstr kv.1))
  | _ => .error .typeError

/-!
Character-level Python semantics, generated from the CPython (3.11)
Unicode database: the whitespace set of `str.strip()`/`str.isspace()`, the
smaller whitespace set accepted by `float()` (which excludes the
information-separator controls 0x1C-0x1F), the run starts of the Unicode
decimal digits (category Nd, what `int()`/`float()` accept as digits and
`unicodedata.decimal` defines), and the digit-only characters (`isdigit()`
true but no decimal value, e.g. superscripts — `int()`/`float()` raise
`ValueError` on them).
-/

/-- Code points of the characters `str.isspace()` accepts (and
`str.strip()` removes). -/
def stripSpaceCodes : List Nat :=
  [0x9, 0xA, 0xB, 0xC, 0xD, 0x1C, 0x1D, 0x1E, 0x1F, 0x20,
   0x85, 0xA0, 0x1680, 0x2000, 0x2001, 0x2002, 0x2003, 0x2004, 0x2005, 0x2006,
   0x2007, 0x2008, 0x2009, 0x200A, 0x2028, 0x2029, 0x202F, 0x205F, 0x3000]

/-- Code points of the whitespace `float()` skips around its argument. -/
def floatSpaceCodes : List Nat :=
  [0x9, 0xA, 0xB, 0xC, 0xD, 0x20, 0x85, 0xA0, 0x1680, 0x2000,
   0x2001, 0x2002, 0x2003, 0x2004, 0x2005, 0x2006, 0x2007, 0x2008, 0x2009,
   0x200A, 0x2028, 0x2029, 0x202F, 0x205F, 0x3000]

/-- `c.isspace()` / the characters `str.strip()` removes. -/
def isPySpace (c : Char) : Bool :=
  stripSpaceCodes.contains c.toNat

/-- The whitespace characters `float()` tolerates. -/
def isFloatSpace (c : Char) : Bool :=
  floatSpaceCodes.contains c.toNat

/-- First code points of the 66 aligned runs of ten Unicode decimal digits
(category Nd): a character at `start + d` has decimal value `d`. -/
def decimalRunStarts : List Nat :=
  [0x30, 0x660, 0x6F0, 0x7C0, 0x966, 0x9E6, 0xA66, 0xAE6, 0xB66, 0xBE6,
   0xC66, 0xCE6, 0xD66, 0xDE6, 0xE50, 0xED0, 0xF20, 0x1040, 0x1090, 0x17E0,
   0x1810, 0x1946, 0x19D0, 0x1A80, 0x1A90, 0x1B50, 0x1BB0, 0x1C40, 0x1C50, 0xA620,
   0xA8D0, 0xA900, 0xA9D0, 0xA9F0, 0xAA50, 0xABF0, 0xFF10, 0x104A0, 0x10D30, 0x11066,
   0x110F0, 0x11136, 0x111D0, 0x112F0, 0x11450, 0x114D0, 0x11650, 0x116C0, 0x11730, 0x118E0,
   0x11950, 0x11C50, 0x11D50, 0x11DA0, 0x16A60, 0x16AC0, 0x16B50, 0x1D7CE, 0x1D7D8, 0x1D7E2,
   0x1D7EC, 0x1D7F6, 0x1E140, 0x1E2F0, 0x1E950, 0x1FBF0]

/-- Code points with `isdigit()` true but no decimal value: `int()` and
`float()` raise `ValueError` on them. -/
def digitOnlyCodes : List Nat :=
  [0xB2, 0xB3, 0xB9, 0x1369, 0x136A, 0x136B, 0x136C, 0x136D, 0x136E, 0x136F,
   0x1370, 0x1371, 0x19DA, 0x2070, 0x2074, 0x2075, 0x2076, 0x2077, 0x2078, 0x2079,
   0x2080, 0x2081, 0x2082, 0x2083, 0x2084, 0x2085, 0x2086, 0x2087, 0x2088, 0x2089,
   0x2460, 0x2461, 0x2462, 0x2463, 0x2464, 0x2465, 0x2466, 0x2467, 0x2468, 0x2474,
   0x2475, 0x2476, 0x2477, 0x2478, 0x2479, 0x247A, 0x247B, 0x247C, 0x2488, 0x2489,
   0x248A, 0x248B, 0x248C, 0x248D, 0x248E, 0x248F, 0x2490, 0x24EA, 0x24F5, 0x24F6,
   0x24F7, 0x24F8, 0x24F9, 0x24FA, 0x24FB, 0x24FC, 0x24FD, 0x24FF, 0x2776, 0x2777,
   0x2778, 0x2779, 0x277A, 0x277B, 0x277C, 0x277D, 0x277E, 0x2780, 0x2781, 0x2782,
   0x2783, 0x2784, 0x2785, 0x2786, 0x2787, 0x2788, 0x278A, 0x278B, 0x278C, 0x278D,
   0x278E, 0x278F, 0x2790, 0x2791, 0x2792, 0x10A40, 0x10A41, 0x10A42, 0x10A43, 0x10E60,
   0x10E61, 0x10E62, 0x10E63, 0x10E64, 0x10E65, 0x10E66, 0x10E67, 0x10E68, 0x11052, 0x11053,
   0x11054, 0x11055, 0x11056, 0x11057, 0x11058, 0x11059, 0x1105A, 0x1F100, 0x1F101, 0x1F102,
   0x1F103, 0x1F104, 0x1F105, 0x1F106, 0x1F107, 0x1F108, 0x1F109, 0x1F10A]

/-- The Unicode decimal value of a character, when it has one (what
`int()`/`float()` read as a digit). -/
def pyCharDecimalVal (c : Char) : Option Nat :=
  match decimalRunStarts.find? (fun s => s ≤ c.toNat ∧ c.toNat < s + 10) with
  | some s => some (c.toNat - s)
  | none => none

/-- `c` passes `str.isdigit()`: a decimal digit of any script, or a
digit-only character such as a superscript. -/
def pyCharIsDigit (c : Char) : Bool :=
  (pyCharDecimalVal c).isSome || digitOnlyCodes.contains c.toNat

/-!
A model of the Python `json.loads`, used by entity.py, sensor.py,
water_heater.py and (through `response.json()`) api.py. It is a fueled
recursive-descent parser producing a `Py` value; a parse error (the Python
`json.JSONDecodeError`) is `none`. Duplicate object keys keep the last
value, numbers follow the exact `json.loads` grammar (leading zeros
rejected, exponents accepted, `NaN`, `Infinity` and `-Infinity` accepted),
and strings reject raw control characters and handle the `\uXXXX` escapes
with surrogate-pair combining, as in Python.
-/

/-- The opening curly brace character. -/
def lbraceChar : Char := Char.ofNat 123

/-- The closing curly brace character. -/
def rbraceChar : Char := Char.ofNat 125

/-- JSON whitespace skipping. -/
def skipWs : List Char → List Char
  | c :: cs => if c = ' ' ∨ c = '\t' ∨ c = '\n' ∨ c = '\r' then skipWs cs else c :: cs
  | [] => []

/-- Decimal digit value of a character, if it is one. -/
def digitVal (c : Char) : Option Nat :=
  if '0' ≤ c ∧ c ≤ '9' then some (c.toNat - '0'.toNat) else none

/-- Read a maximal run of decimal digits. -/
def readDigits : List Char → (List Nat × List Char)
  | c :: cs =>
    match digitVal c with
    | some d =>
      let r := readDigits cs
      (d :: r.1, r.2)
    | none => ([], c :: cs)
  | [] => ([], [])

/-- Natural number denoted by a digit run. -/
def digitsToNat (ds : List Nat) : Nat :=
  ds.foldl (fun acc d => acc * 10 + d) 0

/-- The value of a hexadecimal digit. -/
def hexVal (c : Char) : Option Nat :=
  if '0' ≤ c ∧ c ≤ '9' then some (c.toNat - '0'.toNat)
  else if 'a' ≤ c ∧ c ≤ 'f' then some (c.toNat - 'a'.toNat + 10)
  else if 'A' ≤ c ∧ c ≤ 'F' then some (c.toNat - 'A'.toNat + 10)
  else none

/-- Parse the body of a JSON string literal (after the opening quote), as
strict `json.loads` does: raw control characters below 0x20 are rejected,
the escapes are the eight JSON ones plus `\uXXXX` with surrogate pairs
combined. A lone surrogate is kept by Python but has no Lean scalar value
and is approximated through `Char.ofNat`; the vendor payloads never
contain one. -/
def parseJsonString (fuel : Nat) (cs0 : List Char) : Option (String × List Char) :=
  match fuel with
  | 0 => none
  | fuel + 1 =>
  match cs0 with
  | [] => none
  | c :: cs =>
    if c = '"' then some ("", cs)
    else if c.toNat < 0x20 then none
    else if c = '\\' then
      match cs with
      | 'u' :: h1 :: h2 :: h3 :: h4 :: cs2 =>
        (match hexVal h1, hexVal h2, hexVal h3, hexVal h4 with
         | some a, some b, some c3, some d =>
           let x := ((a * 16 + b) * 16 + c3) * 16 + d
           if 0xD800 ≤ x ∧ x < 0xDC00 then
             match cs2 with
             | '\\' :: 'u' :: k1 :: k2 :: k3 :: k4 :: cs3 =>
               (match hexVal k1, hexVal k2, hexVal k3, hexVal k4 with
                | some a2, some b2, some c4, some d2 =>
                  let y := ((a2 * 16 + b2) * 16 + c4) * 16 + d2
                  if 0xDC00 ≤ y ∧ y < 0xE000 then
                    match parseJsonString fuel cs3 with
                    | some (s, rest) =>
                      some (String.mk (Char.ofNat
                        (0x10000 + (x - 0xD800) * 0x400 + (y - 0xDC00)) :: s.toList), rest)
                    | none => none
                  else
                    match parseJsonString fuel cs2 with
                    | some (s, rest) => some (String.mk (Char.ofNat x :: s.toList), rest)
                    | none => none
                | _, _, _, _ =>
                  match parseJsonString fuel cs2 with
                  | some (s, rest) => some (String.mk (Char.ofNat x :: s.toList), rest)
                  | none => none)
             | _ =>
               match parseJsonString fuel cs2 with
               | some (s, rest) => some (String.mk (Char.ofNat x :: s.toList), rest)
               | none => none
           else
             match parseJsonString fuel cs2 with
             | some (s, rest) => some (String.mk (Char.ofNat x :: s.toList), rest)
             | none => none
         | _, _, _, _ => none)
      | e :: cs2 =>
        let esc : Option Char :=
          if e = '"' then some '"'
          else if e = '\\' then some '\\'
          else if e = '/' then some '/'
          else if e = 'b' then some '\x08'
          else if e = 'f' then some '\x0C'
          else if e = 'n' then some '\n'
          else if e = 't' then some '\t'
          else if e = 'r' then some '\r'
          else none
        match esc with
        | some ch =>
          match parseJsonString fuel cs2 with
          | some (s, rest) => some (String.mk (ch :: s.toList), rest)
          | none => none
        | none => none
      | [] => none
    else
      match parseJsonString fuel cs with
      | some (s, rest) => some (String.mk (c :: s.toList), rest)
      | none => none

/-- Parse a JSON number exactly per the `json.loads` grammar
`-? (0 | [1-9][0-9]*) (. [0-9]+)? ([eE] [+-]? [0-9]+)?`: leading zeros are
rejected (the number stops after a first `0`, making `01` trailing data),
a decimal point or exponent is consumed only when digits follow, and the
value is `pint` for the plain integer form and the exact decimal `pfloat`
otherwise (IEEE rounding/overflow of the decimal value is outside the
model). -/
def parseJsonNumber (cs : List Char) : Option (Py × List Char) :=
  let (neg, cs1) : Bool × List Char :=
    match cs with
    | '-' :: rest => (true, rest)
    | _ => (false, cs)
  let intPart : Option (List Nat × List Char) :=
    match cs1 with
    | '0' :: rest => some ([0], rest)
    | c :: rest =>
      match digitVal c with
      | some d =>
        let r := readDigits rest
        some (d :: r.1, r.2)
      | none => none
    | [] => none
  match intPart with
  | none => none
  | some (ids, cs2) =>
    let fracPart : Option (List Nat × List Char) :=
      match cs2 with
      | '.' :: rest =>
        match readDigits rest with
        | ([], _) => none
        | (ds, rest2) => some (ds, rest2)
      | _ => none
    let (fds, cs3, hasFrac) : List Nat × List Char × Bool :=
      match fracPart with
      | some (ds, r) => (ds, r, true)
      | none => ([], cs2, false)
    let expPart : Option (Int × List Char) :=
      match cs3 with
      | c :: rest =>
        if c = 'e' ∨ c = 'E' then
          let (esign, rest2) : Int × List Char :=
            match rest with
            | '+' :: r => (1, r)
            | '-' :: r => (-1, r)
            | _ => (1, rest)
          match readDigits rest2 with
          | ([], _) => none
          | (ds, rest3) => some (esign * (digitsToNat ds : Int), rest3)
        else none
      | [] => none
    let (expVal, cs4, hasExp) : Int × List Char × Bool :=
      match expPart with
      | some (e, r) => (e, r, true)
      | none => (0, cs3, false)
    if hasFrac || hasExp then
      let mant : Int := (digitsToNat (ids ++ fds) : Int)
      let mant : Int := if neg then -mant else mant
      let q : ℚ := (mant : ℚ) * (10 : ℚ) ^ (expVal - (fds.length : Int))
      some (.pfloat q, cs4)
    else
      let n : Int := (digitsToNat ids : Int)
      some (.pint (if neg then -n else n), cs4)

mutual

/-- Parse one JSON value. `fuel` strictly decreases on every recursive
call; `jsonLoads` supplies enough for any input of the given length. -/
def parseJsonValue (fuel : Nat) (cs : List Char) : Option (Py × List Char) :=
  match fuel with
  | 0 => none
  | fuel + 1 =>
    match skipWs cs with
    | 'n' :: 'u' :: 'l' :: 'l' :: rest => some (.pnone, rest)
    | 't' :: 'r' :: 'u' :: 'e' :: rest => some (.pbool true, rest)
    | 'f' :: 'a' :: 'l' :: 's' :: 'e' :: rest => some (.pbool false, rest)
    | 'N' :: 'a' :: 'N' :: rest => some (.pnan, rest)
    | 'I' :: 'n' :: 'f' :: 'i' :: 'n' :: 'i' :: 't' :: 'y' :: rest => some (.pinf, rest)
    | '-' :: 'I' :: 'n' :: 'f' :: 'i' :: 'n' :: 'i' :: 't' :: 'y' :: rest =>
      some (.pninf, rest)
    | '"' :: rest =>
      match parseJsonString (rest.length + 1) rest with
      | some (s, rest2) => some (.pstr s, rest2)
      | none => none
    | '[' :: rest =>
      match skipWs rest with
      | ']' :: rest2 => some (.plist [], rest2)
      | rest2 =>
        match parseJsonItems fuel rest2 with
        | some (xs, rest3) => some (.plist xs, rest3)
        | none => none
    | c :: rest =>
      if c = lbraceChar then
        match skipWs rest with
        | c2 :: rest2 =>
          if c2 = rbraceChar then some (.pdict [], rest2)
          else
            match parseJsonMembers fuel (c2 :: rest2) [] with
            | some (kvs, rest3) => some (.pdict kvs, rest3)
            | none => none
        | [] => none
      else parseJsonNumber (c :: rest)
    | [] => none

/-- Parse the comma-separated items of a non-empty JSON array, up to and
including the closing bracket. -/
def parseJsonItems (fuel : Nat) (cs : List Char) : Option (List Py × List Char) :=
  match fuel with
  | 0 => none
  | fuel + 1 =>
    match parseJsonValue fuel cs with
    | none => none
    | some (v, rest) =>
      match skipWs rest with
      | ',' :: rest2 =>
        match parseJsonItems fuel rest2 with
        | some (vs, rest3) => some (v :: vs, rest3)
        | none => none
      | ']' :: rest2 => some ([v], rest2)
      | _ => none

/-- Parse the members of a non-empty JSON object, up to and including the
closing brace, accumulating entries with dict-assignment semantics (a
duplicate key overwrites in place). -/
def parseJsonMembers (fuel : Nat) (cs : List Char) (acc : PyDict) :
    Option (PyDict × List Char) :=
  match fuel with
  | 0 => none
  | fuel + 1 =>
    match skipWs cs with
    | '"' :: rest =>
      match parseJsonString (rest.length + 1) rest with
      | none => none
      | some (k, rest2) =>
        match skipWs rest2 with
        | ':' :: rest3 =>
          match parseJsonValue fuel rest3 with
          | none => none
          | some (v, rest4) =>
            let acc2 := dSet acc k v
            match skipWs rest4 with
            | c :: rest5 =>
              if c = ',' then parseJsonMembers fuel rest5 acc2
              else if c = rbraceChar then some (acc2, rest5)
              else none
            | [] => none
        | _ => none
    | _ => none

end

/-- Model of `json.loads` on a string: parse one JSON value and require
only whitespace after it; `none` models a raised `json.JSONDecodeError`. -/
def jsonLoads (s : String) : Option Py :=
  match parseJsonValue (2 * s.length + 2) s.toList with
  | some (v, rest) =>
    match skipWs rest with
    | [] => some v
    | _ => none
  | none => none

/-!
entity.py: `extract_output_data(device_data)` — the status decoder.
-/

/-- The `for event in events` loop of `extract_output_data` (entity.py
lines 33-37): return the `outputData` of the first `"post"` event (empty dict if
it is not a dict); `event.get` on a non-dict element raises
`AttributeError`; when no `"post"` event is found the loop falls through
(`none`). -/
def postEventLoop : List Py → Except PyExc (Option PyDict)
  | [] => .ok none
  | ev :: rest =>
    match ev with
    | .pdict e =>
      match dGet e "identifier" with
      | .pstr "post" =>
        match dGet e "outputData" with
        | .pdict o => .ok (some o)
        | _ => .ok (some [])
      | _ => postEventLoop rest
    | _ => .error .attributeError

/-- entity.py lines 32-39: `parsed.get("events")` (raising `AttributeError`
when `parsed` is not a dict), the `"post"`-event scan when `events` is a
list, and the fall-back to a top-level `outputData` key. -/
def parsedStatusCont (parsed : Py) : Except PyExc PyDict :=
  match parsed with
  | .pdict p =>
    let topOutput : PyDict :=
      match dGet p "outputData" with
      | .pdict o => o
      | _ => []
    match dGet p "events" with
    | .plist evs =>
      match postEventLoop evs with
      | .error e => .error e
      | .ok (some o) => .ok o
      | .ok none => .ok topOutput
    | _ => .ok topOutput
  | _ => .error .attributeError

/-- entity.py lines 15-19: the `statusInfo` value the decoder will look
at — `device_data.get("statusInfo")`, falling back to
`appDeviceStatusInfoEntity.statusInfo` when that is falsy. -/
def resolvedStatusInfo (device_data : PyDict) : Py :=
  let raw0 := dGet device_data "statusInfo"
  if truthy raw0 then raw0
  else
    match dGet device_data "appDeviceStatusInfoEntity" with
    | .pdict app => dGet app "statusInfo"
    | _ => raw0

/-- entity.py lines 11-39: `extract_output_data(device_data)`. Resolves
`statusInfo` (falling back to `appDeviceStatusInfoEntity.statusInfo` when
falsy), parses a string value as JSON (a `json.JSONDecodeError` is caught
and yields `{}`), accepts an already-parsed dict, and hands the parsed
value to the event scan. -/
def extract_output_data (device_data : PyDict) : Except PyExc PyDict :=
  if !truthy (.pdict device_data) then .ok []
  else
    let raw := resolvedStatusInfo device_data
    if !truthy raw then .ok []
    else
      match raw with
      | .pstr s =>
        match jsonLoads s with
        | some parsed => parsedStatusCont parsed
        | none => .ok []
      | .pdict d => parsedStatusCont (.pdict d)
      | _ => .ok []

/-!
sensor.py: `_extract_output_data` and the `native_value` numeric coercion
of `AOSmithSensor` / `AOSmithRawSensor`.
-/

/-- The event loop of sensor.py `_extract_output_data` (lines 74-77):
`return event.get(...) or` the empty dict for the first `"post"` event (a
falsy `outputData` is replaced by `{}`); a non-dict event raises
`AttributeError` at `event.get`; no `"post"` event yields `{}`. -/
def sensorPostLoop : List Py → Except PyExc Py
  | [] => .ok (.pdict [])
  | ev :: rest =>
    match ev with
    | .pdict e =>
      match dGet e "identifier" with
      | .pstr "post" =>
        let output := dGetD e "outputData" (.pdict [])
        .ok (if truthy output then output else .pdict [])
      | _ => sensorPostLoop rest
    | _ => .error .attributeError

/-- sensor.py lines 58-77: `_extract_output_data(device_data)`. `json.loads`
of a non-string raises `TypeError`, which the broad `except` turns into the
raw value when it is a dict and `{}` otherwise; `events` is read with a
`[]` default when the parsed value is a dict and is `[]` otherwise, and the
`for event in events` loop iterates whatever value that is — a string
iterates its characters, a dict its keys (each then failing at
`event.get`), and a non-iterable value raises `TypeError`. -/
def sensor_extract_output_data (device_data : PyDict) : Except PyExc Py :=
  if !truthy (.pdict device_data) then .ok (.pdict [])
  else
    let raw := dGet device_data "statusInfo"
    if !truthy raw then .ok (.pdict [])
    else
      let parsed : Py :=
        match raw with
        | .pstr s =>
          match jsonLoads s with
          | some v => v
          | none => .pdict []
        | .pdict d => .pdict d
        | _ => .pdict []
      let events : Py :=
        match parsed with
        | .pdict p => dGetD p "events" (.plist [])
        | _ => .plist []
      match pyIterElems events with
      | .error e => .error e
      | .ok evs => sensorPostLoop evs

/-- `value.strip()`: remove leading and trailing whitespace (the
`isspace()` set). -/
def pyStrip (s : String) : String :=
  String.mk (((s.toList.dropWhile isPySpace).reverse.dropWhile isPySpace).reverse)

/-- Remove the first occurrence of a character: `val.replace(".", "", 1)`
specialised to its use site. -/
def removeFirst (c : Char) : List Char → List Char
  | [] => []
  | x :: xs => if x = c then xs else x :: removeFirst c xs

/-- `str.isdigit()`: non-empty and every character a digit — a decimal
digit of any script or a digit-only character such as a superscript. -/
def pyIsDigitStr (l : List Char) : Bool :=
  !l.isEmpty && l.all pyCharIsDigit

/-- Spec-side reading of `int(val)` on an ASCII digit string: the value of
its decimal digits. -/
def intOfDigits (l : List Char) : Int :=
  (digitsToNat (l.filterMap digitVal) : Int)

/-- Spec-side reading of `float(val)` on an ASCII string of digits holding
at most one decimal point: the exact decimal value. -/
def floatOfDigitDot (l : List Char) : ℚ :=
  let ip := l.takeWhile (fun c => c ≠ '.')
  let fp := (l.dropWhile (fun c => c ≠ '.')).drop 1
  ((digitsToNat ((ip ++ fp).filterMap digitVal) : ℚ)) / ((10 : ℚ) ^ fp.length)

/-- Lower-case an ASCII letter, leave every other character alone (how
`float()` matches its `inf`/`nan` constants case-insensitively). -/
def asciiLower (c : Char) : Char :=
  if 'A' ≤ c && c ≤ 'Z' then Char.ofNat (c.toNat + 32) else c

/-- The underscore rule of numeric string conversion: every `_` must stand
directly between two characters with a Unicode decimal value. -/
def underscoresOk : List Char → Bool
  | a :: '_' :: b :: rest =>
    (pyCharDecimalVal a).isSome && (pyCharDecimalVal b).isSome &&
      underscoresOk (b :: rest)
  | '_' :: _ => false
  | _ :: rest => underscoresOk rest
  | [] => true

/-- Read a maximal run of Unicode decimal digits (any script), returning
their values. -/
def readUDigits : List Char → (List Nat × List Char)
  | c :: cs =>
    match pyCharDecimalVal c with
    | some d =>
      let r := readUDigits cs
      (d :: r.1, r.2)
    | none => ([], c :: cs)
  | [] => ([], [])

/-- The magnitude grammar `float()` accepts once sign, constants and
underscores are handled: digits, an optional point with further digits (at
least one digit in the mantissa overall), and an optional signed exponent;
the whole input must be consumed. The exact rational value is kept (the
CPython result is this value rounded to the nearest IEEE double, or an
overflow error beyond its range — a distinction the telemetry values this
code converts never reach). -/
def parseFloatDecimal (l : List Char) : Option ℚ :=
  let r1 := readUDigits l
  let ids := r1.1
  let dotted : Bool × List Char :=
    if r1.2.head? = some '.' then (true, r1.2.tail) else (false, r1.2)
  let r2 := if dotted.1 then readUDigits dotted.2 else ([], dotted.2)
  let fds := r2.1
  if ids.isEmpty && fds.isEmpty then none
  else
    let mant : ℚ := (digitsToNat (ids ++ fds) : ℚ) / (10 : ℚ) ^ fds.length
    match r2.2 with
    | [] => some mant
    | c :: rest =>
      if c = 'e' ∨ c = 'E' then
        let er : Bool × List Char :=
          if rest.head? = some '-' then (true, rest.tail)
          else if rest.head? = some '+' then (false, rest.tail)
          else (false, rest)
        let r3 := readUDigits er.2
        if r3.1.isEmpty ∨ !r3.2.isEmpty then none
        else
          let ev : ℤ :=
            if er.1 then -(digitsToNat r3.1 : ℤ) else (digitsToNat r3.1 : ℤ)
          some (mant * (10 : ℚ) ^ ev)
      else none

/-- A Python `float` object: a finite value (kept exact as a rational),
`nan`, `inf` or `-inf`. -/
inductive PyFloatVal where
  | fin (q : ℚ) : PyFloatVal
  | nan : PyFloatVal
  | inf : PyFloatVal
  | ninf : PyFloatVal
deriving Repr, DecidableEq

/-- The comparison `x > 0` on a Python float: false for `nan` and `-inf`,
true for `inf`. -/
def gtZero : PyFloatVal → Bool
  | .fin q => decide (0 < q)
  | .nan => false
  | .inf => true
  | .ninf => false

/-- Python `float(v)`: numbers convert by value; a string is stripped of
the whitespace `float()` tolerates, an optional sign is read, the
case-insensitive constants `inf`, `infinity` and `nan` are recognised,
underscores must sit between decimal digits and are then removed, and the
remainder must be a decimal magnitude (Unicode decimal digits of any
script allowed) — otherwise `ValueError`; any other value is a
`TypeError`. -/
def pyFloat (v : Py) : Except PyExc PyFloatVal :=
  match v with
  | .pbool b => .ok (.fin (if b then 1 else 0))
  | .pint n => .ok (.fin (n : ℚ))
  | .pfloat q => .ok (.fin q)
  | .pnan => .ok .nan
  | .pinf => .ok .inf
  | .pninf => .ok .ninf
  | .pstr s =>
    let l := ((s.toList.dropWhile isFloatSpace).reverse.dropWhile
      isFloatSpace).reverse
    let sgn : Bool × List Char :=
      if l.head? = some '-' then (true, l.tail)
      else if l.head? = some '+' then (false, l.tail)
      else (false, l)
    let low := sgn.2.map asciiLower
    if low = ['i', 'n', 'f'] ∨ low = ['i', 'n', 'f', 'i', 'n', 'i', 't', 'y'] then
      .ok (if sgn.1 then .ninf else .inf)
    else if low = ['n', 'a', 'n'] then .ok .nan
    else if !underscoresOk sgn.2 then .error .valueError
    else
      match parseFloatDecimal (sgn.2.filter (fun c => c ≠ '_')) with
      | some q => .ok (.fin (if sgn.1 then -q else q))
      | none => .error .valueError
  | _ => .error .typeError

/-- Python `int(s)` on a string (base 10): strip the whitespace numeric
conversion tolerates, read an optional sign, validate and drop
underscores, and require a non-empty all-consuming run of Unicode decimal
digits — otherwise `ValueError`. -/
def pyIntStr (s : String) : Except PyExc Int :=
  let l := ((s.toList.dropWhile isFloatSpace).reverse.dropWhile
    isFloatSpace).reverse
  let sgn : Bool × List Char :=
    if l.head? = some '-' then (true, l.tail)
    else if l.head? = some '+' then (false, l.tail)
    else (false, l)
  if !underscoresOk sgn.2 then .error .valueError
  else
    let r := readUDigits (sgn.2.filter (fun c => c ≠ '_'))
    if r.1.isEmpty ∨ !r.2.isEmpty then .error .valueError
    else .ok (if sgn.1 then -(digitsToNat r.1 : Int) else (digitsToNat r.1 : Int))

/-- sensor.py lines 159-172, the value coercion of
`AOSmithSensor.native_value` (shared verbatim by `AOSmithRawSensor`): a
`None` value stays `None`; a string is stripped, the empty result becomes
`None`, and when the string with its first `.` removed passes `isdigit()`
it is handed to `float()` (when a `.` is present) or `int()` — either of
which raises `ValueError` on digit-only characters such as superscripts;
any other string and every non-string value is returned unchanged. -/
def nativeValueCoerce (value : Py) : Except PyExc Py :=
  match value with
  | .pnone => .ok .pnone
  | .pstr s =>
    let val := pyStrip s
    if val = "" then .ok .pnone
    else if pyIsDigitStr (removeFirst '.' val.toList) then
      if val.toList.contains '.' then
        match pyFloat (.pstr val) with
        | .ok (.fin q) => .ok (.pfloat q)
        | .ok .nan => .ok .pnan
        | .ok .inf => .ok .pinf
        | .ok .ninf => .ok .pninf
        | .error e => .error e
      else
        match pyIntStr val with
        | .ok n => .ok (.pint n)
        | .error e => .error e
    else .ok (.pstr s)
  | v => .ok v

/-- sensor.py lines 153-172: `AOSmithSensor.native_value` — extract the
output data, return `None` when it is falsy, read the sensor key and apply
the numeric coercion. A truthy non-dict extraction result raises
`AttributeError` at `output.get`. -/
def native_value (device_data : PyDict) (sensor_key : String) : Except PyExc Py :=
  match sensor_extract_output_data device_data with
  | .error e => .error e
  | .ok output =>
    if !truthy output then .ok .pnone
    else
      match output with
      | .pdict o => nativeValueCoerce (dGet o sensor_key)
      | _ => .error .attributeError

/-!
api.py: the vendor API client. The HTTP transport is abstracted as an
`HttpResult` — what `session.post` and the response produced: a raised
timeout, another raised transport exception, or a response with an HTTP
status code and a body text. The client state the code consults is whether
`self._session` is set (`sessionOpen`).

api.py imports aiohttp, json, time, hashlib, uuid and logging but never
`asyncio`; its `except asyncio.TimeoutError:` clauses therefore raise
`NameError` the moment any exception reaches them, because evaluating the
type expression of the clause looks up the undefined name `asyncio`. This is
modelled by `PyExc.nameErrorAsyncio`.
-/

/-- Outcome of one HTTP POST: the transport raised a timeout, raised some
other exception, or delivered a response with an HTTP status and body. -/
inductive HttpResult where
  | timeout : HttpResult
  | exc : HttpResult
  | resp (status : Nat) (body : String) : HttpResult
deriving Repr, DecidableEq

/-- Python `x in v` with a string on the left: key test for dicts, element
test for lists, substring test for strings, `TypeError` otherwise. -/
def pyContainsStr (v : Py) (k : String) : Except PyExc Bool :=
  match v with
  | .pdict d => .ok (hasKey d k)
  | .plist xs => .ok (xs.any (fun x => pyBeq x (.pstr k)))
  | .pstr s => .ok ((List.range (s.length + 1)).any
      (fun i => (s.toList.drop i).take k.length == k.toList))
  | _ => .error .typeError

/-- Python `v[k]` with a string key: dict lookup (`KeyError` cannot occur
at its use sites, which test `k in v` first), `TypeError` otherwise. -/
def pySubscriptStr (v : Py) (k : String) : Except PyExc Py :=
  match v with
  | .pdict d => .ok (dGet d k)
  | _ => .error .typeError

/-- Python `acc.extend(v)`: append the elements of an iterable (list
elements, string characters, dict keys), `TypeError` otherwise. -/
def pyExtend (acc : List Py) (v : Py) : Except PyExc (List Py) :=
  match v with
  | .plist xs => .ok (acc ++ xs)
  | .pstr s => .ok (acc ++ s.toList.map (fun c => .pstr (String.mk [c])))
  | .pdict d => .ok (acc ++ d.map (fun kv => .pstr kv.1))
  | _ => .error .typeError

/-- Python `str(v)` as far as this code compares it with `"19"`: strings,
ints, bools and `None` render exactly; floats render with a decimal point;
list/dict reprs are abbreviated (they can never equal a category code). -/
def pyStr : Py → String
  | .pnone => "None"
  | .pbool b => if b then "True" else "False"
  | .pint n => toString n
  | .pfloat q => if q.den = 1 then toString q.num ++ ".0" else toString q.num ++ "/" ++ toString q.den
  | .pnan => "nan"
  | .pinf => "inf"
  | .pninf => "-inf"
  | .pstr s => s
  | .plist _ => "[...]"
  | .pdict _ => "\x7b...\x7d"

/-- `data.get("status") == 200` — the application-status check of the
response envelope. -/
def appStatusOk (d : PyDict) : Bool :=
  match pyNum (dGet d "status") with
  | some q => q == 200
  | none => false

/-- api.py lines 88-93, the room fallback loop: for each room entry that
has a `deviceList`, extend the accumulator with its contents. -/
def roomLoop : List Py → List Py → Except PyExc (List Py)
  | acc, [] => .ok acc
  | acc, room :: rest =>
    match pyContainsStr room "deviceList" with
    | .error e => .error e
    | .ok hasDL =>
      if hasDL then
        match pySubscriptStr room "deviceList" with
        | .error e => .error e
        | .ok dl =>
          match pyExtend acc dl with
          | .error e => .error e
          | .ok acc2 => roomLoop acc2 rest
      else roomLoop acc rest

/-- api.py lines 79-94: collect the device records of a device-list `info`
object — the flat `devInfoItemInfoList` first, and only when that leaves
`devices` empty, the `deviceList` of each entry of `roomInfoItemInfoList`. -/
def get_devices_from_info (info : Py) : Except PyExc (List Py) :=
  match pyContainsStr info "devInfoItemInfoList" with
  | .error e => .error e
  | .ok hasPrimary =>
    let step1 : Except PyExc (List Py) :=
      if hasPrimary then
        match pySubscriptStr info "devInfoItemInfoList" with
        | .error e => .error e
        | .ok primary => pyExtend [] primary
      else .ok []
    match step1 with
    | .error e => .error e
    | .ok devices =>
      match pyContainsStr info "roomInfoItemInfoList" with
      | .error e => .error e
      | .ok hasRooms =>
        if devices.isEmpty && hasRooms then
          match pySubscriptStr info "roomInfoItemInfoList" with
          | .error e => .error e
          | .ok rooms =>
            match pyIterElems rooms with
            | .error e => .error e
            | .ok roomList => roomLoop devices roomList
        else .ok devices

/-- api.py lines 96-99: keep the devices whose stringified `deviceCategory`
equals `DEVICE_CATEGORY_WATER_HEATER = "19"`; `device.get` on a non-dict
raises `AttributeError`. -/
def filter_water_heaters (devices : List Py) : Except PyExc (List Py) :=
  devices.foldlM (fun acc device =>
    match device with
    | .pdict d =>
      .ok (if pyStr (dGet d "deviceCategory") = "19" then acc ++ [device] else acc)
    | _ => .error .attributeError) []

/-- api.py lines 45-130: `async_get_devices`. With no session it raises
`Exception("API not authenticated")`. Inside the `try`, an HTTP status
other than 200, a JSON parse failure or an application status other than
200 each `raise`; a transport exception or timeout also lands in the
`except` clauses — and every one of these paths then raises `NameError`
when `except asyncio.TimeoutError:` is evaluated, because api.py never did
an asyncio import. Only the success path returns the filtered device list. -/
def async_get_devices (sessionOpen : Bool) (r : HttpResult) :
    Except PyExc (List Py) :=
  if !sessionOpen then .error (.exception "API not authenticated")
  else
    let tryBody : Except PyExc (List Py) :=
      match r with
      | .timeout => .error .timeoutError
      | .exc => .error (.exception "transport")
      | .resp status body =>
        if status = 200 then
          match jsonLoads body with
          | none => .error (.exception "Failed to parse JSON response")
          | some data =>
            match data with
            | .pdict d =>
              if appStatusOk d then
                match get_devices_from_info (dGetD d "info" (.pdict [])) with
                | .error e => .error e
                | .ok devices => filter_water_heaters devices
              else .error (.exception "API returned error status")
            | _ => .error .attributeError
        else .error (.exception "HTTP error")
    match tryBody with
    | .ok v => .ok v
    | .error _ => .error .nameErrorAsyncio

/-- api.py lines 132-180: `async_get_device_status`. With no session it
raises `Exception("API not authenticated")`. An HTTP status other than 200,
a JSON parse failure (caught by the inner `except json.JSONDecodeError`) or
an application status other than 200 each return `None`; success returns
`data.get("info", {})`. A transport exception or timeout reaches the
`except asyncio.TimeoutError:` clause, whose evaluation raises `NameError`
(asyncio is never imported), so those paths raise instead of returning
`None`. -/
def async_get_device_status (sessionOpen : Bool) (r : HttpResult) :
    Except PyExc Py :=
  if !sessionOpen then .error (.exception "API not authenticated")
  else
    let tryBody : Except PyExc Py :=
      match r with
      | .timeout => .error .timeoutError
      | .exc => .error (.exception "transport")
      | .resp status body =>
        if status = 200 then
          match jsonLoads body with
          | none => .ok .pnone
          | some data =>
            match data with
            | .pdict d =>
              if appStatusOk d then .ok (dGetD d "info" (.pdict []))
              else .ok .pnone
            | _ => .error .attributeError
        else .ok .pnone
    match tryBody with
    | .ok v => .ok v
    | .error _ => .error .nameErrorAsyncio

/-- api.py lines 182-226: `async_send_command`. With no session it raises
`Exception("API not authenticated")`. An HTTP status other than 200 returns
`None`; a parsed response is returned; any exception in the `try` — here
the `except Exception` clause is first, so it genuinely catches — returns
`None`. -/
def async_send_command (sessionOpen : Bool) (r : HttpResult) :
    Except PyExc Py :=
  if !sessionOpen then .error (.exception "API not authenticated")
  else
    .ok
      (match r with
       | .timeout => .pnone
       | .exc => .pnone
       | .resp status body =>
         if status ≠ 200 then .pnone
         else
           match jsonLoads body with
           | none => .pnone
           | some data => data)

/-!
__init__.py: `AOSmithDataUpdateCoordinator._async_update_data` — the
per-refresh device aggregation. The aggregate store is a Python dict keyed
by the `deviceId` value of each device record, so its keys are `Py` values
compared with Python `==`.
-/

/-- The aggregate store `data`: device id value → merged snapshot dict. -/
abbrev Store := List (Py × PyDict)

/-- `kv` is the store entry for device id `k` (Python `==` on keys). -/
def storeKeyMatch (k : Py) (kv : Py × PyDict) : Bool := pyBeq kv.1 k

/-- `data[device_id]` lookup in the aggregate store (Python `==` on keys). -/
def storeGet (store : Store) (k : Py) : Option PyDict :=
  match store.find? (storeKeyMatch k) with
  | some kv => some kv.2
  | none => none

/-- `data[device_id] = snapshot`: replace in place or append. -/
def storeSet (store : Store) (k : Py) (v : PyDict) : Store :=
  if store.any (storeKeyMatch k) then
    store.map (fun kv => if storeKeyMatch k kv then (kv.1, v) else kv)
  else
    store ++ [(k, v)]

/-- `{**device, **status}`: keys of `device` in order with the values of
`status` winning on collision, followed by the keys only `status` has. -/
def mergeDicts (device status : PyDict) : PyDict :=
  device.map (fun kv => (kv.1, if hasKey status kv.1 then dGet status kv.1 else kv.2))
    ++ status.filter (fun kv => !hasKey device kv.1)

/-- What one `asyncio.wait_for(api.async_get_device_status(...), 10.0)`
call produced for a given device id: a returned value (`info` dict or
`None`), a raised `asyncio.TimeoutError`, or another raised exception
(such as the `NameError` that api.py raises on a transport error). -/
inductive StatusFetch where
  | value (v : Py) : StatusFetch
  | timeout : StatusFetch
  | exc (e : PyExc) : StatusFetch

/-- __init__.py lines 122-147, one iteration of the device loop: skip
records whose `deviceId` is falsy; on a truthy status dict store the
merged snapshot; on a falsy status, a non-dict status (the `{**device,
**status}` `TypeError` is caught by `except Exception`), a timeout or any
other exception store the bare device record. `device.get` on a non-dict
device record raises outside the inner `try`. -/
def processDevice (fetch : Py → StatusFetch) (data : Store) (device : Py) :
    Except PyExc Store :=
  match device with
  | .pdict d =>
    let did := dGet d "deviceId"
    if truthy did then
      match fetch did with
      | .value status =>
        if truthy status then
          match status with
          | .pdict sd => .ok (storeSet data did (mergeDicts d sd))
          | _ => .ok (storeSet data did d)
        else .ok (storeSet data did d)
      | .timeout => .ok (storeSet data did d)
      | .exc _ => .ok (storeSet data did d)
    else .ok data
  | _ => .error .attributeError

/-- __init__.py lines 110-159: `_async_update_data`, given the device list
the API returned and the per-device status outcomes. The device loop runs
under the outer `try`; any exception escaping it is re-raised as
`UpdateFailed` (modelled by the error string). -/
def async_update_data (devices : List Py) (fetch : Py → StatusFetch) :
    Except String Store :=
  match devices.foldlM (processDevice fetch) ([] : Store) with
  | .ok data => .ok data
  | .error _ => .error "UpdateFailed"

/-!
water_heater.py: `AOSmithWaterHeater.current_operation` and
`async_set_temperature`.
-/

/-- water_heater.py lines 74-82, the event scan of `current_operation`:
return `"heat"` at the first `"post"` event whose `outputData` has
`powerStatus == "1"` and a truthy `waterTemp` with `float(water_temp) > 0`;
scanning continues over later events otherwise. `event.get` or
`output_data.get` on a non-dict raises, as does a failing `float`. -/
def currentOpScan : List Py → Except PyExc String
  | [] => .ok "off"
  | ev :: rest =>
    match ev with
    | .pdict e =>
      match dGet e "identifier" with
      | .pstr "post" =>
        match dGetD e "outputData" (.pdict []) with
        | .pdict o =>
          let power := dGet o "powerStatus"
          let wt := dGet o "waterTemp"
          if pyBeq power (.pstr "1") && truthy wt then
            match pyFloat wt with
            | .error err => .error err
            | .ok fv => if gtZero fv then .ok "heat" else currentOpScan rest
          else currentOpScan rest
        | _ => .error .attributeError
      | _ => currentOpScan rest
    | _ => .error .attributeError

/-- water_heater.py lines 66-84: `current_operation`. A falsy `statusInfo`
is `"off"`; otherwise the `try` parses it (`json.loads` of a non-string
raises `TypeError`), reads `events` with a `[]` default and runs the
`for event in events` scan over whatever the iteration of that value
yields (`TypeError` for a non-iterable); every exception inside the `try`
is caught by `except Exception` and yields `"off"`. -/
def current_operation (device_data : PyDict) : String :=
  let si := dGet device_data "statusInfo"
  if !truthy si then "off"
  else
    let tryBody : Except PyExc String :=
      match si with
      | .pstr s =>
        match jsonLoads s with
        | none => .error .jsonDecodeError
        | some data =>
          match data with
          | .pdict d =>
            match pyIterElems (dGetD d "events" (.plist [])) with
            | .error e => .error e
            | .ok evs => currentOpScan evs
          | _ => .error .attributeError
      | _ => .error .typeError
    match tryBody with
    | .ok op => op
    | .error _ => "off"

/-- The observable record of one `async_set_temperature` call: the
aggregate store right after the optimistic write (visible to reads issued
before the command resolves), the store when the call finishes, whether a
command was issued, whether its response counted as success, and an
exception escaping the method. -/
structure SetTempResult where
  storeAfterWrite : Store
  storeFinal : Store
  commandSent : Bool
  commandSucceeded : Bool
  raised : Option PyExc

/-- water_heater.py lines 118-137: `async_set_temperature`. A missing
temperature returns at once. Otherwise `target_temperature` is assigned
into the snapshot of the device (`self.device_data` is
`coordinator.data.get(device_id, {})`, so the store only changes when the
device is present) and the state write is signalled; when the coordinator
has an authenticated api, the command is sent and its result only decides
which message is logged — the snapshot is never touched again, on success
or failure. `cmd` is what `api.async_send_command` did. -/
def async_set_temperature (store : Store) (device_id : Py)
    (temperature : Option Py) (apiPresent : Bool) (apiAuthenticated : Bool)
    (cmd : Except PyExc Py) : SetTempResult :=
  match temperature with
  | none => ⟨store, store, false, false, none⟩
  | some t =>
    let snap : PyDict :=
      match storeGet store device_id with
      | some s => s
      | none => []
    let snap1 := dSet snap "target_temperature" t
    let store1 :=
      match storeGet store device_id with
      | some _ => storeSet store device_id snap1
      | none => store
    if apiPresent && apiAuthenticated then
      match cmd with
      | .error e => ⟨store1, store1, true, false, some e⟩
      | .ok result =>
        if truthy result then
          match result with
          | .pdict rd =>
            ⟨store1, store1, true, appStatusOk rd, none⟩
          | _ => ⟨store1, store1, true, false, some .attributeError⟩
        else ⟨store1, store1, true, false, none⟩
    else ⟨store1, store1, false, false, none⟩

/-!
Spec-side definitions: decidable shape predicates over snapshots, and
restatements of what the specification says the code returns, to be
compared with the embedded code above.
-/

/-- The value is a dict. -/
def isDict : Py → Bool
  | .pdict _ => true
  | _ => false

/-- The parsed `statusInfo` value is a JSON object and, when it has a list
under `events`, every element of that list is an object: the shapes on
which the event scan of the decoder cannot trip over a non-dict. -/
def parsedShapeOk (parsed : Py) : Bool :=
  match parsed with
  | .pdict p =>
    match dGet p "events" with
    | .plist evs => evs.all isDict
    | _ => true
  | _ => false

/-- A snapshot is decoder-safe when its resolved `statusInfo` is falsy, a
non-JSON or non-string non-dict value, or parses/stands as a JSON object
whose `events` elements are all objects. -/
def snapshotDecoderSafe (device_data : PyDict) : Bool :=
  match resolvedStatusInfo device_data with
  | .pstr s =>
    if s = "" then true
    else
      match jsonLoads s with
      | some parsed => parsedShapeOk parsed
      | none => true
  | .pdict d => if d.isEmpty then true else parsedShapeOk (.pdict d)
  | _ => true

/-- An event (a dict) whose `identifier` equals `"post"`. -/
def isPostEvent (ev : Py) : Bool :=
  match ev with
  | .pdict e =>
    match dGet e "identifier" with
    | .pstr "post" => true
    | _ => false
  | _ => false

/-- The `outputData` of an event, as the spec reads it: its mapping, or the
empty mapping when it is not one. -/
def postOutputOf (ev : Py) : PyDict :=
  match ev with
  | .pdict e =>
    match dGet e "outputData" with
    | .pdict o => o
    | _ => []
  | _ => []

/-- Modelled from the spec: "the outputData mapping of the first event
whose identifier equals `post` (empty dict if that outputData is not a
mapping)". `none` when no such event exists. -/
def specFirstPostOutput (evs : List Py) : Option PyDict :=
  (evs.find? isPostEvent).map postOutputOf

/-- Modelled from the spec: "a string consisting only of digits and at
most one decimal point" (with at least one digit, so that `"."` alone does
not qualify). -/
def specNumericString (l : List Char) : Bool :=
  l.count '.' ≤ 1 && l.all (fun c => c.isDigit || c = '.') && l.any Char.isDigit

/-- Modelled from the spec: the number a numeric string denotes — `float`
(its exact decimal value) when a `.` is present, else `int`. -/
def specNumericValue (l : List Char) : Py :=
  if l.contains '.' then .pfloat (floatOfDigitDot l) else .pint (intOfDigits l)

/-- One step of the room-device collection: append the `deviceList` of a room
when it has one. -/
def specRoomStep (acc : List Py) (room : Py) : List Py :=
  match room with
  | .pdict r =>
    if hasKey r "deviceList" then
      match dGet r "deviceList" with
      | .plist ds => acc ++ ds
      | _ => acc
    else acc
  | _ => acc

/-- Modelled from the spec: "the devices nested under the room list" — the
concatenation of the `deviceList` entries of the rooms that have one. -/
def specRoomDevices (rooms : List Py) : List Py :=
  rooms.foldl specRoomStep []

/-- A room entry is a dict whose `deviceList`, when present, is a list:
the shapes on which the room fallback cannot raise. -/
def roomShapeOk (room : Py) : Bool :=
  match room with
  | .pdict r =>
    !hasKey r "deviceList" ||
      (match dGet r "deviceList" with
       | .plist _ => true
       | _ => false)
  | _ => false

/-- Every room entry is shape-safe. -/
def roomsShapeOk (rooms : List Py) : Bool :=
  rooms.all roomShapeOk

/-- An event is heat-scan safe: it is a dict, its `outputData` (defaulted
to `{}`) is a dict, and whenever the scan would call `float` on its
`waterTemp` (`powerStatus == "1"` and a truthy `waterTemp`) that call
succeeds. -/
def eventScanSafe (ev : Py) : Bool :=
  match ev with
  | .pdict e =>
    match dGetD e "outputData" (.pdict []) with
    | .pdict o =>
      if pyBeq (dGet o "powerStatus") (.pstr "1") && truthy (dGet o "waterTemp") then
        match pyFloat (dGet o "waterTemp") with
        | .ok _ => true
        | .error _ => false
      else true
    | _ => false
  | _ => false

/-- Modelled from the spec (as amended): an event that makes the heater
report `"heat"` — a `"post"` event whose `outputData` has
`powerStatus == "1"` and a truthy `waterTemp` reading as a number greater
than zero. -/
def specHeatEvent (ev : Py) : Bool :=
  match ev with
  | .pdict e =>
    (match dGet e "identifier" with
     | .pstr "post" => true
     | _ => false) &&
    (match dGetD e "outputData" (.pdict []) with
     | .pdict o =>
       pyBeq (dGet o "powerStatus") (.pstr "1") && truthy (dGet o "waterTemp") &&
         (match pyFloat (dGet o "waterTemp") with
          | .ok fv => gtZero fv
          | .error _ => false)
     | _ => false)
  | _ => false

/-!
Theorems. Small helper lemmas first, then one theorem per claim (with its
witness or counterexample where called for).
-/

theorem dGet_nil (k : String) : dGet [] k = .pnone := rfl

theorem hasKey_of_dGet_ne_pnone (d : PyDict) (k : String)
    (h : dGet d k ≠ .pnone) : hasKey d k = true := by
  unfold dGet at h
  unfold hasKey
  rcases hf : d.find? (fun kv => kv.1 = k) with _ | kv
  · rw [hf] at h
    exact absurd rfl h
  · have hmem := List.find?_some hf
    have hin := List.mem_of_find?_eq_some hf
    exact List.any_eq_true.mpr ⟨kv, hin, hmem⟩

theorem hasKey_of_dGet_pstr (d : PyDict) (k : String) (s : String)
    (h : dGet d k = .pstr s) : hasKey d k = true := by
  apply hasKey_of_dGet_ne_pnone
  rw [h]
  intro hc
  exact Py.noConfusion hc

theorem hasKey_of_dGet_plist (d : PyDict) (k : String) (xs : List Py)
    (h : dGet d k = .plist xs) : hasKey d k = true := by
  apply hasKey_of_dGet_ne_pnone
  rw [h]
  intro hc
  exact Py.noConfusion hc

theorem isPostEvent_pdict (e : PyDict) :
    isPostEvent (.pdict e) = true ↔ dGet e "identifier" = .pstr "post" := by
  show (match dGet e "identifier" with
        | Py.pstr "post" => true
        | _ => false) = true ↔ _
  constructor
  · intro h
    split at h
    · assumption
    · exact absurd h (by simp)
  · intro h
    rw [h]
    rfl

theorem specFirstPostOutput_cons_pos (ev : Py) (rest : List Py)
    (h : isPostEvent ev = true) :
    specFirstPostOutput (ev :: rest) = some (postOutputOf ev) := by
  unfold specFirstPostOutput
  rw [List.find?_cons_of_pos _ h]
  rfl

theorem specFirstPostOutput_cons_neg (ev : Py) (rest : List Py)
    (h : isPostEvent ev = false) :
    specFirstPostOutput (ev :: rest) = specFirstPostOutput rest := by
  unfold specFirstPostOutput
  rw [List.find?_cons_of_neg _ (by simp [h])]

/-- On the event lists whose elements are all dicts, the decoder event
loop cannot raise and returns exactly the first-`post`-event output the
specification describes. -/
theorem postEventLoop_eq_spec (evs : List Py) (h : evs.all isDict = true) :
    postEventLoop evs = .ok (specFirstPostOutput evs) := by
  induction evs with
  | nil => rfl
  | cons ev rest ih =>
    rw [List.all_cons, Bool.and_eq_true] at h
    obtain ⟨hev, hrest⟩ := h
    match ev with
    | .pdict e =>
      by_cases hpost : dGet e "identifier" = .pstr "post"
      · rw [specFirstPostOutput_cons_pos _ _ ((isPostEvent_pdict e).mpr hpost)]
        simp only [postEventLoop, hpost, postOutputOf]
        generalize dGet e "outputData" = x
        cases x <;> rfl
      · have hpb : isPostEvent (.pdict e) = false := by
          cases hb : isPostEvent (.pdict e)
          · rfl
          · exact absurd ((isPostEvent_pdict e).mp hb) hpost
        rw [specFirstPostOutput_cons_neg _ _ hpb, ← ih hrest]
        simp only [postEventLoop]

/-- On a parsed status value of safe shape, the continuation of the
decoder returns a dict and cannot raise. -/
theorem parsedStatusCont_ok (parsed : Py) (h : parsedShapeOk parsed = true) :
    ∃ out, parsedStatusCont parsed = .ok out := by
  match parsed with
  | .pdict p =>
    unfold parsedShapeOk at h
    unfold parsedStatusCont
    cases hev : dGet p "events" with
    | plist xs =>
      simp only [hev] at h ⊢
      rw [postEventLoop_eq_spec xs h]
      cases hspec : specFirstPostOutput xs with
      | some o => exact ⟨o, rfl⟩
      | none => exact ⟨_, rfl⟩
    | pnone =>
      exact ⟨(match dGet p "outputData" with | .pdict o => o | _ => []), by simp [hev]⟩
    | pbool b =>
      exact ⟨(match dGet p "outputData" with | .pdict o => o | _ => []), by simp [hev]⟩
    | pint n =>
      exact ⟨(match dGet p "outputData" with | .pdict o => o | _ => []), by simp [hev]⟩
    | pfloat q =>
      exact ⟨(match dGet p "outputData" with | .pdict o => o | _ => []), by simp [hev]⟩
    | pstr s =>
      exact ⟨(match dGet p "outputData" with | .pdict o => o | _ => []), by simp [hev]⟩
    | pdict kvs =>
      exact ⟨(match dGet p "outputData" with | .pdict o => o | _ => []), by simp [hev]⟩
    | pnan =>
      exact ⟨(match dGet p "outputData" with | .pdict o => o | _ => []), by simp [hev]⟩
    | pinf =>
      exact ⟨(match dGet p "outputData" with | .pdict o => o | _ => []), by simp [hev]⟩
    | pninf =>
      exact ⟨(match dGet p "outputData" with | .pdict o => o | _ => []), by simp [hev]⟩

/-- C1 counterexample. The decoder is not total: on the snapshot whose
`statusInfo` is the string `"123"` — valid JSON that is not an object —
`parsed.get("events")` raises `AttributeError`, so `extract_output_data`
raises instead of returning a dict. -/
theorem extract_output_data_raises_on_numeric_json :
    extract_output_data [("statusInfo", .pstr "123")] = .error .attributeError := rfl

/-- C1 as amended. `extract_output_data` returns a dict (possibly empty)
and never raises on every snapshot whose resolved `statusInfo` is absent or
falsy, a non-JSON string, a non-string non-dict value, or a value that
parses to (or already is) a JSON object whose `events` list, when present,
holds only objects — the originally claimed totality fails only when the
parse result is not an object or an `events` element is not an object. -/
theorem extract_output_data_total_on_safe_snapshots (dd : PyDict)
    (h : snapshotDecoderSafe dd = true) :
    ∃ out, extract_output_data dd = .ok out := by
  unfold snapshotDecoderSafe at h
  unfold extract_output_data
  cases hemp : dd.isEmpty with
  | true => exact ⟨[], by simp [truthy, hemp]⟩
  | false =>
    simp only [truthy, hemp, Bool.not_false, Bool.not_true, if_false]
    cases hraw : resolvedStatusInfo dd with
    | pstr s =>
      rw [hraw] at h
      by_cases hs : s = ""
      · subst hs
        exact ⟨[], by simp [truthy]⟩
      · simp only [hs, if_false] at h
        simp only [truthy, hs, Bool.not_false, if_false]
        cases hj : jsonLoads s with
        | none => exact ⟨[], by simp [hj, truthy, hs]⟩
        | some parsed =>
          rw [hj] at h
          simp only [hj]
          have hne : (s != "") = true := by simp [hs]
          simp only [hne, Bool.not_true, if_false]
          exact parsedStatusCont_ok parsed h
    | pdict d =>
      rw [hraw] at h
      cases hd : d.isEmpty with
      | true => exact ⟨[], by simp [truthy, hd]⟩
      | false =>
        simp only [hd, if_false] at h
        simp only [truthy, hd, Bool.not_false, if_false]
        exact parsedStatusCont_ok (.pdict d) h
    | pnone => exact ⟨[], by simp [truthy]⟩
    | pbool b => exact ⟨[], by cases b <;> simp [truthy]⟩
    | pint n => exact ⟨[], by simp [truthy]⟩
    | pfloat q => exact ⟨[], by simp [truthy]⟩
    | pnan => exact ⟨[], by simp [truthy]⟩
    | pinf => exact ⟨[], by simp [truthy]⟩
    | pninf => exact ⟨[], by simp [truthy]⟩
    | plist xs => exact ⟨[], by simp [truthy]⟩

/-- C1 witness: a safe snapshot (JSON object without `events`) on which
the amended totality theorem applies. -/
theorem extract_output_data_total_witness :
    snapshotDecoderSafe [("statusInfo", .pstr "\x7b\"a\":1\x7d")] = true ∧
    ∃ out, extract_output_data [("statusInfo", .pstr "\x7b\"a\":1\x7d")] = .ok out :=
  ⟨rfl, extract_output_data_total_on_safe_snapshots _ rfl⟩

/-- C2 counterexample. On a snapshot whose `statusInfo` parses to a JSON
object with an `events` list whose first `"post"` event carries the
`outputData` mapping `waterTemp = "45"`, but where an earlier element of
`events` is the non-object `1`, the decoder raises `AttributeError` at
`event.get` instead of returning that mapping. -/
theorem extract_output_data_raises_before_post_event :
    jsonLoads "\x7b\"events\":[1,\x7b\"identifier\":\"post\",\"outputData\":\x7b\"waterTemp\":\"45\"\x7d\x7d]\x7d"
      = some (.pdict [("events", .plist [.pint 1,
          .pdict [("identifier", .pstr "post"),
                  ("outputData", .pdict [("waterTemp", .pstr "45")])]])]) ∧
    specFirstPostOutput [.pint 1,
        .pdict [("identifier", .pstr "post"),
                ("outputData", .pdict [("waterTemp", .pstr "45")])]]
      = some [("waterTemp", .pstr "45")] ∧
    extract_output_data [("statusInfo", .pstr
        "\x7b\"events\":[1,\x7b\"identifier\":\"post\",\"outputData\":\x7b\"waterTemp\":\"45\"\x7d\x7d]\x7d")]
      = .error .attributeError :=
  ⟨rfl, rfl, rfl⟩

/-- C2 as amended. For every snapshot whose `statusInfo` parses to a JSON
object with an `events` list all of whose elements are objects,
`extract_output_data` returns the `outputData` mapping of the first event
whose identifier equals `"post"` (empty dict if that `outputData` is not a
mapping). -/
theorem extract_output_data_returns_first_post_output
    (dd : PyDict) (s : String) (p : PyDict) (evs : List Py) (out : PyDict)
    (hsi : dGet dd "statusInfo" = .pstr s)
    (hparse : jsonLoads s = some (.pdict p))
    (hevents : dGet p "events" = .plist evs)
    (hdicts : evs.all isDict = true)
    (hfound : specFirstPostOutput evs = some out) :
    extract_output_data dd = .ok out := by
  have hs : s ≠ "" := by
    intro he
    subst he
    rw [show jsonLoads "" = none from rfl] at hparse
    exact Option.noConfusion hparse
  have hdd : dd ≠ [] := by
    intro he
    subst he
    rw [dGet_nil] at hsi
    exact Py.noConfusion hsi
  have hres : resolvedStatusInfo dd = .pstr s := by
    unfold resolvedStatusInfo
    rw [hsi]
    simp [truthy, hs]
  have hemp : dd.isEmpty = false := by
    cases dd
    · exact absurd rfl hdd
    · rfl
  unfold extract_output_data
  rw [hres]
  simp only [truthy, hemp, Bool.not_false, if_false, hparse]
  have hne : (s != "") = true := by simp [hs]
  simp only [hne, Bool.not_true, if_false]
  unfold parsedStatusCont
  simp only [hevents]
  rw [postEventLoop_eq_spec evs hdicts, hfound]
  rfl

/-- C2 witness: the concrete example of the spec — statusInfo holding one
`"post"` event with `outputData.waterTemp = "45"` decodes to exactly that
mapping. -/
theorem extract_output_data_first_post_witness :
    extract_output_data [("statusInfo", .pstr
        "\x7b\"events\":[\x7b\"identifier\":\"post\",\"outputData\":\x7b\"waterTemp\":\"45\"\x7d\x7d]\x7d")]
      = .ok [("waterTemp", .pstr "45")] :=
  extract_output_data_returns_first_post_output _ _
    [("events", .plist [.pdict [("identifier", .pstr "post"),
        ("outputData", .pdict [("waterTemp", .pstr "45")])]])]
    [.pdict [("identifier", .pstr "post"),
        ("outputData", .pdict [("waterTemp", .pstr "45")])]]
    [("waterTemp", .pstr "45")]
    rfl rfl rfl rfl rfl

theorem allDigit_eq_noDot_and_digitOrDot (l : List Char) :
    l.all Char.isDigit
      = (decide (l.count '.' = 0) && l.all (fun c => c.isDigit || c = '.')) := by
  induction l with
  | nil => rfl
  | cons c t ih =>
    by_cases hc : c = '.'
    · subst hc
      simp [List.count_cons]
    · simp [List.count_cons, hc, ih, Bool.and_assoc, Bool.and_comm,
        Bool.and_left_comm]

theorem removeFirst_all_digit (l : List Char) :
    (removeFirst '.' l).all Char.isDigit
      = (decide (l.count '.' ≤ 1) && l.all (fun c => c.isDigit || c = '.')) := by
  induction l with
  | nil => rfl
  | cons c t ih =>
    by_cases hc : c = '.'
    · subst hc
      have harith : (t.count '.' + 1 ≤ 1) ↔ (t.count '.' = 0) := by omega
      simp [removeFirst, List.count_cons, allDigit_eq_noDot_and_digitOrDot t,
        harith]
    · simp [removeFirst, hc, List.count_cons, ih, Bool.and_assoc, Bool.and_comm,
        Bool.and_left_comm]

theorem removeFirst_any_digit (l : List Char) :
    (removeFirst '.' l).any Char.isDigit = l.any Char.isDigit := by
  induction l with
  | nil => rfl
  | cons c t ih =>
    by_cases hc : c = '.'
    · subst hc
      simp [removeFirst]
    · simp [removeFirst, hc, ih]

theorem char_isDigit_toNat (c : Char) :
    c.isDigit = (decide (48 ≤ c.toNat) && decide (c.toNat ≤ 57)) := by
  simp [Char.isDigit, Char.toNat, UInt32.le_def]
  rfl

theorem decimalRunStarts_ascii :
    decimalRunStarts.all (fun s => s = 48 || 1536 ≤ s) = true := by decide

theorem digitOnlyCodes_ascii :
    digitOnlyCodes.all (fun s => 178 ≤ s) = true := by decide

theorem floatSpaceCodes_bounds :
    floatSpaceCodes.all (fun s => s ≤ 32 || 133 ≤ s) = true := by decide

theorem stripSpaceCodes_bounds :
    stripSpaceCodes.all (fun s => s ≤ 32 || 133 ≤ s) = true := by decide

theorem pyCharDecimalVal_ascii (c : Char) (h : c.toNat < 128) :
    pyCharDecimalVal c = if c.isDigit then some (c.toNat - 48) else none := by
  rw [char_isDigit_toNat]
  unfold pyCharDecimalVal
  by_cases hd : 48 ≤ c.toNat ∧ c.toNat ≤ 57
  · have hfind : decimalRunStarts.find?
        (fun s => decide (s ≤ c.toNat ∧ c.toNat < s + 10)) = some 48 := by
      rw [show decimalRunStarts = 48 :: decimalRunStarts.tail from rfl]
      apply List.find?_cons_of_pos
      simp only [decide_eq_true_eq]
      omega
    rw [hfind]
    simp [hd.1, hd.2]
  · have hfind : decimalRunStarts.find?
        (fun s => decide (s ≤ c.toNat ∧ c.toNat < s + 10)) = none := by
      rw [List.find?_eq_none]
      intro x hx
      have := (List.all_eq_true.mp decimalRunStarts_ascii) x hx
      simp only [Bool.or_eq_true, decide_eq_true_eq] at this
      simp only [decide_eq_true_eq]
      rcases this with h48 | hbig
      · omega
      · omega
    rw [hfind]
    have h1 : (decide (48 ≤ c.toNat) && decide (c.toNat ≤ 57)) = false := by
      rcases Nat.lt_or_ge c.toNat 48 with hlt | hge
      · simp [Nat.not_le.mpr hlt]
      · have : ¬ (c.toNat ≤ 57) := by omega
        simp [this]
    rw [h1]
    simp

theorem nat_contains_false_of_mid (codes : List Nat)
    (hall : codes.all (fun s => s ≤ 32 || 133 ≤ s) = true) (n : Nat)
    (h1 : 32 < n) (h2 : n < 133) : codes.contains n = false := by
  cases hc : codes.contains n with
  | false => rfl
  | true =>
    have hmem : n ∈ codes := by
      rw [List.contains_eq_any_beq] at hc
      rcases List.any_eq_true.mp hc with ⟨x, hx, hbeq⟩
      have : n = x := by simpa using hbeq
      rw [this]
      exact hx
    have := (List.all_eq_true.mp hall) _ hmem
    simp only [Bool.or_eq_true, decide_eq_true_eq] at this
    omega

theorem digitOnly_contains_false_of_ascii (c : Char) (h : c.toNat < 128) :
    digitOnlyCodes.contains c.toNat = false := by
  cases hc : digitOnlyCodes.contains c.toNat with
  | false => rfl
  | true =>
    have hmem : c.toNat ∈ digitOnlyCodes := by
      rw [List.contains_eq_any_beq] at hc
      rcases List.any_eq_true.mp hc with ⟨x, hx, hbeq⟩
      have : c.toNat = x := by simpa using hbeq
      rw [this]
      exact hx
    have := (List.all_eq_true.mp digitOnlyCodes_ascii) _ hmem
    simp only [decide_eq_true_eq] at this
    omega

theorem pyCharIsDigit_ascii (c : Char) (h : c.toNat < 128) :
    pyCharIsDigit c = c.isDigit := by
  unfold pyCharIsDigit
  rw [pyCharDecimalVal_ascii c h, digitOnly_contains_false_of_ascii c h]
  cases hd : c.isDigit <;> simp

theorem underscoresOk_of_no_underscore (l : List Char)
    (h : ∀ c ∈ l, c ≠ '_') : underscoresOk l = true := by
  induction l using underscoresOk.induct with
  | case1 a b rest ih =>
    exact absurd rfl (h '_' (by simp))
  | case2 rest =>
    exact absurd rfl (h '_' (by simp))
  | case3 a rest h1 h2 ih =>
    rw [underscoresOk]
    · exact ih (fun c hc => h c (by simp [hc]))
    · exact h1
    · exact h2
  | case4 => rfl

theorem digitVal_eq (c : Char) :
    digitVal c = if c.isDigit then some (c.toNat - 48) else none := by
  unfold digitVal
  rw [char_isDigit_toNat]
  have heq : ('0' ≤ c ∧ c ≤ '9') ↔ (48 ≤ c.toNat ∧ c.toNat ≤ 57) := by
    constructor
    · intro ⟨h1, h2⟩
      exact ⟨h1, h2⟩
    · intro ⟨h1, h2⟩
      exact ⟨h1, h2⟩
  by_cases hd : 48 ≤ c.toNat ∧ c.toNat ≤ 57
  · rw [if_pos (heq.mpr hd), if_pos (by simp [hd.1, hd.2])]
    rfl
  · rw [if_neg (fun hc => hd (heq.mp hc)), if_neg]
    intro hc
    simp only [Bool.and_eq_true, decide_eq_true_eq] at hc
    exact hd hc

theorem pyCharDecimalVal_eq_digitVal (c : Char) (h : c.toNat < 128) :
    pyCharDecimalVal c = digitVal c := by
  rw [pyCharDecimalVal_ascii c h, digitVal_eq]

theorem digitOrDot_toNat (c : Char) (h : (c.isDigit || c = '.') = true) :
    c.toNat = 46 ∨ (48 ≤ c.toNat ∧ c.toNat ≤ 57) := by
  rw [char_isDigit_toNat] at h
  simp only [Bool.or_eq_true, Bool.and_eq_true, decide_eq_true_eq] at h
  rcases h with ⟨h1, h2⟩ | h2
  · exact Or.inr ⟨h1, h2⟩
  · subst h2
    exact Or.inl rfl

theorem dropWhile_eq_self_of_all_neg {p : Char → Bool} (l : List Char)
    (h : ∀ c ∈ l, p c = false) : l.dropWhile p = l := by
  cases l with
  | nil => rfl
  | cons c t =>
    apply List.dropWhile_cons_of_neg
    simp [h c (by simp)]

theorem strip_eq_self_of_all_neg {p : Char → Bool} (l : List Char)
    (h : ∀ c ∈ l, p c = false) :
    ((l.dropWhile p).reverse.dropWhile p).reverse = l := by
  rw [dropWhile_eq_self_of_all_neg l h,
      dropWhile_eq_self_of_all_neg l.reverse (fun c hc => h c (List.mem_reverse.mp hc)),
      List.reverse_reverse]

theorem readUDigits_stop_of_none (c : Char) (t : List Char)
    (h : pyCharDecimalVal c = none) : readUDigits (c :: t) = ([], c :: t) := by
  simp only [readUDigits, h]

theorem readUDigits_run (ip rest : List Char)
    (hip : ∀ c ∈ ip, (pyCharDecimalVal c).isSome = true)
    (hrest : readUDigits rest = ([], rest)) :
    readUDigits (ip ++ rest) = (ip.filterMap pyCharDecimalVal, rest) := by
  induction ip with
  | nil => simpa using hrest
  | cons c t ih =>
    have hc := hip c (by simp)
    rcases Option.isSome_iff_exists.mp hc with ⟨d, hd⟩
    have iht := ih (fun x hx => hip x (by simp [hx]))
    rw [List.cons_append]
    simp only [readUDigits, hd, iht, List.filterMap_cons, hd]

theorem filterMap_all_some_length {f : Char → Option Nat} (l : List Char)
    (h : ∀ c ∈ l, (f c).isSome = true) : (l.filterMap f).length = l.length := by
  induction l with
  | nil => rfl
  | cons c t ih =>
    rcases Option.isSome_iff_exists.mp (h c (by simp)) with ⟨d, hd⟩
    simp [List.filterMap_cons, hd, ih (fun x hx => h x (by simp [hx]))]

theorem dropWhile_ne_dot (l : List Char) (h : l.contains '.' = true) :
    ∃ fp, l.dropWhile (fun c => c ≠ '.') = '.' :: fp := by
  induction l with
  | nil => simp at h
  | cons c t ih =>
    by_cases hc : c = '.'
    · subst hc
      exact ⟨t, by rw [List.dropWhile_cons_of_neg (by simp)]⟩
    · have ht : t.contains '.' = true := by
        rw [List.contains_eq_any_beq] at h ⊢
        rcases List.any_eq_true.mp h with ⟨x, hx, hbeq⟩
        rcases List.mem_cons.mp hx with he | hm
        · have hxd : c = '.' := by
            rw [← he]
            have : ('.' : Char) = x := by simpa using hbeq
            exact this.symm
          exact absurd hxd hc
        · exact List.any_eq_true.mpr ⟨x, hm, hbeq⟩
      rcases ih ht with ⟨fp, hfp⟩
      exact ⟨fp, by rw [List.dropWhile_cons_of_pos (by simp [hc]), hfp]⟩

theorem asciiLower_eq_self_of_lt (c : Char) (h : c.toNat < 65) :
    asciiLower c = c := by
  unfold asciiLower
  rw [if_neg]
  intro hc
  rw [Bool.and_eq_true, decide_eq_true_eq, decide_eq_true_eq] at hc
  have h1 : (65 : Nat) ≤ c.toNat := hc.1
  omega

theorem parseFloatDecimal_digitDot (l : List Char)
    (hascii : ∀ c ∈ l, c.toNat < 128)
    (hall : ∀ c ∈ l, (c.isDigit || c = '.') = true)
    (hdot : l.count '.' ≤ 1)
    (hanyd : l.any Char.isDigit = true)
    (hcont : l.contains '.' = true) :
    parseFloatDecimal l = some (floatOfDigitDot l) := by
  obtain ⟨fp, hfp⟩ := dropWhile_ne_dot l hcont
  have hsplit : l.takeWhile (fun c => c ≠ '.') ++ '.' :: fp = l := by
    rw [← hfp]
    exact List.takeWhile_append_dropWhile _ l
  set ip := l.takeWhile (fun c => c ≠ '.') with hip_def
  have hip_mem : ∀ c ∈ ip, c ∈ l := by
    intro c hc
    rw [← hsplit]
    exact List.mem_append_left _ hc
  have hip_digit : ∀ c ∈ ip, c.isDigit = true := by
    intro c hc
    have hne : c ≠ '.' := by
      have := List.mem_takeWhile_imp hc
      simpa using this
    have := hall c (hip_mem c hc)
    simp only [Bool.or_eq_true, decide_eq_true_eq] at this
    rcases this with hd | he
    · exact hd
    · exact absurd he hne
  have hcount : ip.count '.' + (fp.count '.' + 1) = l.count '.' := by
    rw [← hsplit]
    simp [List.count_append, List.count_cons]
  have hfp_nodot : ('.' : Char) ∉ fp := by
    rw [← List.count_eq_zero]
    omega
  have hfp_mem : ∀ c ∈ fp, c ∈ l := by
    intro c hc
    rw [← hsplit]
    exact List.mem_append_right _ (by simp [hc])
  have hfp_digit : ∀ c ∈ fp, c.isDigit = true := by
    intro c hc
    have := hall c (hfp_mem c hc)
    simp only [Bool.or_eq_true, decide_eq_true_eq] at this
    rcases this with hd | he
    · exact hd
    · exact absurd (he ▸ hc) hfp_nodot
  have hip_some : ∀ c ∈ ip, (pyCharDecimalVal c).isSome = true := by
    intro c hc
    rw [pyCharDecimalVal_ascii c (hascii c (hip_mem c hc)), hip_digit c hc]
    rfl
  have hfp_some : ∀ c ∈ fp, (pyCharDecimalVal c).isSome = true := by
    intro c hc
    rw [pyCharDecimalVal_ascii c (hascii c (hfp_mem c hc)), hfp_digit c hc]
    rfl
  have hdotval : pyCharDecimalVal '.' = none := by decide
  have hr1 : readUDigits l = (ip.filterMap pyCharDecimalVal, '.' :: fp) := by
    rw [← hsplit]
    exact readUDigits_run ip ('.' :: fp) hip_some (readUDigits_stop_of_none _ _ hdotval)
  have hr2 : readUDigits fp = (fp.filterMap pyCharDecimalVal, []) := by
    have := readUDigits_run fp [] hfp_some rfl
    simpa using this
  have hlen_ip : (ip.filterMap pyCharDecimalVal).length = ip.length :=
    filterMap_all_some_length ip hip_some
  have hlen_fp : (fp.filterMap pyCharDecimalVal).length = fp.length :=
    filterMap_all_some_length fp hfp_some
  have hne_both : ((ip.filterMap pyCharDecimalVal).isEmpty &&
      (fp.filterMap pyCharDecimalVal).isEmpty) = false := by
    rcases List.any_eq_true.mp hanyd with ⟨c, hcl, hcd⟩
    rw [← hsplit] at hcl
    rcases List.mem_append.mp hcl with hin | hin
    · have hipne : ip ≠ [] := by
        intro he
        rw [he] at hin
        simp at hin
      have hie : (ip.filterMap pyCharDecimalVal).isEmpty = false := by
        rw [List.isEmpty_eq_false]
        intro he
        have hl0 := hlen_ip
        rw [he] at hl0
        exact hipne (List.length_eq_zero.mp hl0.symm)
      rw [hie, Bool.false_and]
    · rcases List.mem_cons.mp hin with he | hm
      · rw [he] at hcd
        simp at hcd
      · have hfpne : fp ≠ [] := by
          intro he
          rw [he] at hm
          simp at hm
        have hfe : (fp.filterMap pyCharDecimalVal).isEmpty = false := by
          rw [List.isEmpty_eq_false]
          intro he
          have hl0 := hlen_fp
          rw [he] at hl0
          exact hfpne (List.length_eq_zero.mp hl0.symm)
        rw [hfe, Bool.and_false]
  simp only [parseFloatDecimal, hr1]
  simp only [List.head?_cons, List.tail_cons, if_pos rfl, if_true, hr2, hne_both,
    Bool.false_eq_true, if_false]
  have hmaps : ip.filterMap pyCharDecimalVal ++ fp.filterMap pyCharDecimalVal
      = (ip ++ fp).filterMap digitVal := by
    rw [List.filterMap_append]
    congr 1
    · exact List.filterMap_congr
        (fun c hc => pyCharDecimalVal_eq_digitVal c (hascii c (hip_mem c hc)))
    · exact List.filterMap_congr
        (fun c hc => pyCharDecimalVal_eq_digitVal c (hascii c (hfp_mem c hc)))
  rw [hmaps, hlen_fp]
  unfold floatOfDigitDot
  rw [hfp, ← hip_def]
  simp only [List.drop_succ_cons, List.drop_zero]

theorem digitOrDot_char_facts (c : Char) (h : (c.isDigit || c = '.') = true) :
    c.toNat < 128 ∧ isFloatSpace c = false ∧ isPySpace c = false ∧
      c.toNat < 65 ∧ c ≠ '-' ∧ c ≠ '+' ∧ c ≠ '_' ∧ c ≠ 'i' ∧ c ≠ 'n' := by
  have hn := digitOrDot_toNat c h
  refine ⟨by omega, ?_, ?_, by omega, ?_, ?_, ?_, ?_, ?_⟩
  · exact nat_contains_false_of_mid _ floatSpaceCodes_bounds _ (by omega) (by omega)
  · exact nat_contains_false_of_mid _ stripSpaceCodes_bounds _ (by omega) (by omega)
  · intro he
    subst he
    revert hn
    decide
  · intro he
    subst he
    revert hn
    decide
  · intro he
    subst he
    revert hn
    decide
  · intro he
    subst he
    revert hn
    decide
  · intro he
    subst he
    revert hn
    decide

theorem pyFloat_digitDot (v : String)
    (hall : ∀ c ∈ v.toList, (c.isDigit || c = '.') = true)
    (hdot : v.toList.count '.' ≤ 1)
    (hanyd : v.toList.any Char.isDigit = true)
    (hcont : v.toList.contains '.' = true) :
    pyFloat (.pstr v) = .ok (.fin (floatOfDigitDot v.toList)) := by
  have hstrip : ((v.toList.dropWhile isFloatSpace).reverse.dropWhile
      isFloatSpace).reverse = v.toList :=
    strip_eq_self_of_all_neg _
      (fun c hc => (digitOrDot_char_facts c (hall c hc)).2.1)
  obtain ⟨c0, t, hL⟩ : ∃ c0 t, v.toList = c0 :: t := by
    cases hv : v.toList with
    | nil =>
      rw [hv] at hanyd
      simp at hanyd
    | cons a b => exact ⟨a, b, rfl⟩
  have hc0 := digitOrDot_char_facts c0 (hall c0 (by rw [hL]; simp))
  simp only [pyFloat]
  rw [hstrip, hL]
  have hnm : ¬((c0 :: t).head? = some '-') := by
    simp only [List.head?_cons, Option.some.injEq]
    exact hc0.2.2.2.2.1
  have hnp : ¬((c0 :: t).head? = some '+') := by
    simp only [List.head?_cons, Option.some.injEq]
    exact hc0.2.2.2.2.2.1
  rw [if_neg hnm, if_neg hnp]
  have hmap : (c0 :: t).map asciiLower = c0 :: t := by
    have : ∀ c ∈ (c0 :: t), asciiLower c = c := by
      intro c hc
      exact asciiLower_eq_self_of_lt c
        (digitOrDot_char_facts c (hall c (by rw [hL]; exact hc))).2.2.2.1
    calc (c0 :: t).map asciiLower = (c0 :: t).map id := List.map_congr_left this
    _ = c0 :: t := List.map_id _
  simp only [hmap]
  have hinf : ¬((c0 :: t) = ['i', 'n', 'f'] ∨
      (c0 :: t) = ['i', 'n', 'f', 'i', 'n', 'i', 't', 'y']) := by
    intro he
    rcases he with he | he
    · exact hc0.2.2.2.2.2.2.2.1 ((List.cons.injEq _ _ _ _).mp he).1
    · exact hc0.2.2.2.2.2.2.2.1 ((List.cons.injEq _ _ _ _).mp he).1
  have hnan : ¬((c0 :: t) = ['n', 'a', 'n']) := fun he =>
    hc0.2.2.2.2.2.2.2.2 ((List.cons.injEq _ _ _ _).mp he).1
  rw [if_neg hinf, if_neg hnan]
  rw [underscoresOk_of_no_underscore _
    (fun c hc => (digitOrDot_char_facts c (hall c (by rw [hL]; exact hc))).2.2.2.2.2.2.1)]
  simp only [Bool.not_true, Bool.false_eq_true, if_false]
  have hfilt : (c0 :: t).filter (fun c => c ≠ '_') = c0 :: t := by
    rw [List.filter_eq_self]
    intro a ha
    exact decide_eq_true
      ((digitOrDot_char_facts a (hall a (by rw [hL]; exact ha))).2.2.2.2.2.2.1)
  rw [hfilt]
  rw [parseFloatDecimal_digitDot (c0 :: t)
    (fun c hc => (digitOrDot_char_facts c (hall c (by rw [hL]; exact hc))).1)
    (fun c hc => hall c (by rw [hL]; exact hc))
    (by rw [← hL]; exact hdot)
    (by rw [← hL]; exact hanyd)
    (by rw [← hL]; exact hcont)]

theorem pyIntStr_digits (v : String)
    (hall : ∀ c ∈ v.toList, c.isDigit = true)
    (hne : v.toList ≠ []) :
    pyIntStr v = .ok (intOfDigits v.toList) := by
  have hdd : ∀ c ∈ v.toList, (c.isDigit || c = '.') = true := by
    intro c hc
    rw [hall c hc, Bool.true_or]
  have hstrip : ((v.toList.dropWhile isFloatSpace).reverse.dropWhile
      isFloatSpace).reverse = v.toList :=
    strip_eq_self_of_all_neg _
      (fun c hc => (digitOrDot_char_facts c (hdd c hc)).2.1)
  obtain ⟨c0, t, hL⟩ : ∃ c0 t, v.toList = c0 :: t := by
    cases hv : v.toList with
    | nil => exact absurd hv hne
    | cons a b => exact ⟨a, b, rfl⟩
  have hc0 := digitOrDot_char_facts c0 (hdd c0 (by rw [hL]; simp))
  simp only [pyIntStr]
  rw [hstrip, hL]
  have hnm : ¬((c0 :: t).head? = some '-') := by
    simp only [List.head?_cons, Option.some.injEq]
    exact hc0.2.2.2.2.1
  have hnp : ¬((c0 :: t).head? = some '+') := by
    simp only [List.head?_cons, Option.some.injEq]
    exact hc0.2.2.2.2.2.1
  rw [if_neg hnm, if_neg hnp]
  rw [underscoresOk_of_no_underscore _
    (fun c hc => (digitOrDot_char_facts c (hdd c (by rw [hL]; exact hc))).2.2.2.2.2.2.1)]
  simp only [Bool.not_true, Bool.false_eq_true, if_false]
  have hfilt : (c0 :: t).filter (fun c => c ≠ '_') = c0 :: t := by
    rw [List.filter_eq_self]
    intro a ha
    exact decide_eq_true
      ((digitOrDot_char_facts a (hdd a (by rw [hL]; exact ha))).2.2.2.2.2.2.1)
  rw [hfilt]
  have hsome : ∀ c ∈ (c0 :: t), (pyCharDecimalVal c).isSome = true := by
    intro c hc
    rw [pyCharDecimalVal_ascii c (digitOrDot_char_facts c (hdd c (by rw [hL]; exact hc))).1,
      hall c (by rw [hL]; exact hc)]
    rfl
  have hrun : readUDigits (c0 :: t) = ((c0 :: t).filterMap pyCharDecimalVal, []) := by
    have := readUDigits_run (c0 :: t) [] hsome rfl
    simpa using this
  have hlen : ((c0 :: t).filterMap pyCharDecimalVal).length = (c0 :: t).length :=
    filterMap_all_some_length _ hsome
  have hfne : ((c0 :: t).filterMap pyCharDecimalVal).isEmpty = false := by
    rw [List.isEmpty_eq_false]
    intro he
    rw [he] at hlen
    simp at hlen
  have hmaps : (c0 :: t).filterMap pyCharDecimalVal = (c0 :: t).filterMap digitVal :=
    List.filterMap_congr (fun c hc => pyCharDecimalVal_eq_digitVal c
      (digitOrDot_char_facts c (hdd c (by rw [hL]; exact hc))).1)
  rw [hrun]
  simp [hfne, hmaps, intOfDigits]
  intro hd0
  have : digitVal c0 = some (c0.toNat - 48) := by
    rw [digitVal_eq, hall c0 (by rw [hL]; simp)]
    rfl
  rw [this] at hd0
  exact Option.noConfusion hd0

theorem removeFirst_mem (x c : Char) (l : List Char)
    (h : c ∈ removeFirst x l) : c ∈ l := by
  induction l with
  | nil => simp [removeFirst] at h
  | cons a t ih =>
    by_cases ha : a = x
    · subst ha
      rw [removeFirst, if_pos rfl] at h
      exact List.mem_cons_of_mem _ h
    · rw [removeFirst, if_neg ha] at h
      rcases List.mem_cons.mp h with he | hm
      · exact he ▸ List.mem_cons_self _ _
      · exact List.mem_cons_of_mem _ (ih hm)

theorem pyIsDigitStr_ascii (l : List Char) (h : ∀ c ∈ l, c.toNat < 128) :
    pyIsDigitStr l = (!l.isEmpty && l.all Char.isDigit) := by
  unfold pyIsDigitStr
  congr 1
  induction l with
  | nil => rfl
  | cons c t ih =>
    rw [List.all_cons, List.all_cons, pyCharIsDigit_ascii c (h c (by simp)),
      ih (fun x hx => h x (by simp [hx]))]

theorem notEmpty_all_digit (l : List Char) :
    (!l.isEmpty && l.all Char.isDigit) = (l.all Char.isDigit && l.any Char.isDigit) := by
  cases l with
  | nil => rfl
  | cons c t =>
    simp only [List.isEmpty_cons, Bool.not_false, Bool.true_and,
      List.all_cons, List.any_cons]
    cases hc : c.isDigit <;> simp

theorem digit_test_eq_spec_ascii (l : List Char) (h : ∀ c ∈ l, c.toNat < 128) :
    pyIsDigitStr (removeFirst '.' l) = specNumericString l := by
  rw [pyIsDigitStr_ascii _ (fun c hc => h c (removeFirst_mem _ _ _ hc)),
    notEmpty_all_digit, removeFirst_all_digit, removeFirst_any_digit]
  unfold specNumericString
  simp [Bool.and_assoc]

theorem pyStrip_ne_empty_of_mem (s : String) (c : Char)
    (h : c ∈ (pyStrip s).toList) : pyStrip s ≠ "" := by
  intro he
  rw [he] at h
  simp at h

theorem nativeValueCoerce_numeric_ascii (s : String)
    (hascii : ∀ c ∈ (pyStrip s).toList, c.toNat < 128)
    (hnum : specNumericString (pyStrip s).toList = true) :
    nativeValueCoerce (.pstr s) = .ok (specNumericValue (pyStrip s).toList) := by
  have hnum3 := hnum
  unfold specNumericString at hnum3
  rw [Bool.and_eq_true, Bool.and_eq_true] at hnum3
  have hdot : (pyStrip s).toList.count '.' ≤ 1 := by
    have := hnum3.1.1
    simpa using this
  have hall : ∀ c ∈ (pyStrip s).toList, (c.isDigit || c = '.') = true :=
    fun c hc => List.all_eq_true.mp hnum3.1.2 c hc
  have hanyd : (pyStrip s).toList.any Char.isDigit = true := hnum3.2
  have hne : pyStrip s ≠ "" := by
    rcases List.any_eq_true.mp hanyd with ⟨c, hc, _⟩
    exact pyStrip_ne_empty_of_mem s c hc
  simp only [nativeValueCoerce]
  rw [if_neg hne, digit_test_eq_spec_ascii _ hascii, if_pos hnum]
  unfold specNumericValue
  cases hcont : (pyStrip s).toList.contains '.' with
  | true =>
    simp only [hcont, if_true]
    rw [pyFloat_digitDot (pyStrip s) hall hdot hanyd hcont]
  | false =>
    simp only [hcont, Bool.false_eq_true, if_false]
    have halld : ∀ c ∈ (pyStrip s).toList, c.isDigit = true := by
      intro c hc
      have := hall c hc
      rw [Bool.or_eq_true, decide_eq_true_eq] at this
      rcases this with hd | he
      · exact hd
      · exfalso
        rw [List.contains_eq_any_beq] at hcont
        have : (pyStrip s).toList.any (fun x => '.' == x) = true :=
          List.any_eq_true.mpr ⟨c, hc, by rw [he]; rfl⟩
        rw [this] at hcont
        exact Bool.noConfusion hcont
    have hlne : (pyStrip s).toList ≠ [] := by
      rcases List.any_eq_true.mp hanyd with ⟨c, hc, _⟩
      intro he
      rw [he] at hc
      simp at hc
    rw [pyIntStr_digits (pyStrip s) halld hlne]

/-- C3 counterexample. `str.isdigit()` is not an ASCII digit test: the
superscript two character (code point 178) passes it, so the coercion
attempts `int()` on it and raises `ValueError` instead of returning the
string unchanged, while the Arabic-Indic digit three (code point 1635) is
converted to the int 3 although the spec reads digit strings as ASCII;
through `native_value` a `waterTemp` holding the superscript raises
instead of producing a value. -/
theorem sensor_native_value_unicode_digit_counterexample :
    pyIsDigitStr "\u00B2".toList = true ∧
    specNumericString "\u00B2".toList = false ∧
    nativeValueCoerce (.pstr "\u00B2") = .error .valueError ∧
    specNumericString "\u0663".toList = false ∧
    nativeValueCoerce (.pstr "\u0663") = .ok (.pint 3) ∧
    native_value [("statusInfo", .pstr
        "\x7b\"events\":[\x7b\"identifier\":\"post\",\"outputData\":\x7b\"waterTemp\":\"\u00B2\"\x7d\x7d]\x7d")]
      "waterTemp" = .error .valueError :=
  ⟨rfl, rfl, rfl, rfl, rfl, rfl⟩

/-- C3 as amended. On values whose stripped form is ASCII the claimed
coercion holds exactly: a string that strips to empty becomes `None`; a
stripped string of digits with at most one decimal point becomes the
`float` (when a `.` is present, its exact decimal value) or `int` it
denotes; any other such string passes through unchanged; every non-string
value passes through unchanged; and `native_value` surfaces exactly this
coercion of the raw field value. On non-ASCII strings the digit test is
the Unicode `isdigit()` and the conversions read Unicode decimal digits
or raise `ValueError` — see the counterexample. -/
theorem sensor_native_value_numeric_coercion_on_ascii :
    (∀ s : String, pyStrip s = "" → nativeValueCoerce (.pstr s) = .ok .pnone) ∧
    (∀ s : String, (∀ c ∈ (pyStrip s).toList, c.toNat < 128) →
       specNumericString (pyStrip s).toList = true →
       nativeValueCoerce (.pstr s) = .ok (specNumericValue (pyStrip s).toList)) ∧
    (∀ s : String, (∀ c ∈ (pyStrip s).toList, c.toNat < 128) →
       pyStrip s ≠ "" → specNumericString (pyStrip s).toList = false →
       nativeValueCoerce (.pstr s) = .ok (.pstr s)) ∧
    (∀ v : Py, (∀ s : String, v ≠ .pstr s) → nativeValueCoerce v = .ok v) ∧
    (∀ dd k o, sensor_extract_output_data dd = .ok (.pdict o) → o ≠ [] →
       native_value dd k = nativeValueCoerce (dGet o k)) := by
  refine ⟨?_, ?_, ?_, ?_, ?_⟩
  · intro s h
    simp [nativeValueCoerce, h]
  · intro s hascii h
    exact nativeValueCoerce_numeric_ascii s hascii h
  · intro s hascii hne h
    simp only [nativeValueCoerce, if_neg hne, digit_test_eq_spec_ascii _ hascii, h]
    rfl
  · intro v hv
    cases v <;> first | rfl | exact absurd rfl (hv _)
  · intro dd k o h hne
    have hemp : o.isEmpty = false := by
      cases o
      · exact absurd rfl hne
      · rfl
    simp [native_value, h, truthy, hemp]

/-- C3 witness: the examples of the spec on ASCII values — `"38.5"`
becomes the float 38.5, `"0"` becomes the int 0, and `""` becomes
`None`. -/
theorem sensor_native_value_coercion_on_ascii_witness :
    nativeValueCoerce (.pstr "38.5") = .ok (.pfloat (77 / 2)) ∧
    nativeValueCoerce (.pstr "0") = .ok (.pint 0) ∧
    nativeValueCoerce (.pstr "") = .ok .pnone := by
  refine ⟨?_, ?_, ?_⟩
  · have h := sensor_native_value_numeric_coercion_on_ascii.2.1 "38.5"
      (by decide) (by decide)
    rw [h]
    show Except.ok (specNumericValue ['3', '8', '.', '5']) = _
    have : ((385 : ℚ)) / ((10 : ℚ) ^ (1 : ℕ)) = 77 / 2 := by norm_num
    simp [specNumericValue, floatOfDigitDot, digitsToNat, digitVal]
    norm_num
  · have h := sensor_native_value_numeric_coercion_on_ascii.2.1 "0"
      (by decide) (by decide)
    rw [h]
    rfl
  · exact sensor_native_value_numeric_coercion_on_ascii.1 "" rfl

theorem storeGet_storeSet_of_found (store : Store) (k : Py) (v snap : PyDict)
    (h : storeGet store k = some snap) :
    storeGet (storeSet store k v) k = some v := by
  induction store with
  | nil => exact absurd h (by simp [storeGet])
  | cons kv0 rest ih =>
    by_cases h0 : storeKeyMatch k kv0 = true
    · have hany : (kv0 :: rest).any (storeKeyMatch k) = true := by
        simp [List.any_cons, h0]
      unfold storeSet
      rw [if_pos hany]
      unfold storeGet
      have hp : storeKeyMatch k (kv0.1, v) = true := h0
      rw [List.map_cons, if_pos h0, List.find?_cons_of_pos _ hp]
    · have hrest : storeGet rest k = some snap := by
        unfold storeGet at h
        rw [List.find?_cons_of_neg _ h0] at h
        exact h
      have hanyr : rest.any (storeKeyMatch k) = true := by
        unfold storeGet at hrest
        rcases hf : rest.find? (storeKeyMatch k) with _ | kv
        · rw [hf] at hrest
          exact Option.noConfusion hrest
        · exact List.any_eq_true.mpr ⟨kv, List.mem_of_find?_eq_some hf,
            List.find?_some hf⟩
      have hstep : storeGet (storeSet rest k v) k = some v := ih hrest
      unfold storeSet at hstep ⊢
      rw [if_pos hanyr] at hstep
      have hany : (kv0 :: rest).any (storeKeyMatch k) = true := by
        simp [List.any_cons, hanyr]
      rw [if_pos hany]
      unfold storeGet at hstep ⊢
      rw [List.map_cons, if_neg h0, List.find?_cons_of_neg _ h0]
      exact hstep

/-- `async_set_temperature` never changes the store after the optimistic
write: the final store is the post-write store on every path, command
success, command failure and raised command exception alike. -/
theorem set_temperature_final_eq_after (store : Store) (did : Py)
    (temperature : Option Py) (apiP apiA : Bool) (cmd : Except PyExc Py) :
    (async_set_temperature store did temperature apiP apiA cmd).storeFinal
      = (async_set_temperature store did temperature apiP apiA cmd).storeAfterWrite := by
  unfold async_set_temperature
  rcases temperature with _ | t
  · rfl
  · cases hapi : (apiP && apiA)
    · simp
    · rcases cmd with e | result
      · simp
      · simp only [Bool.true_eq, if_pos rfl]
        by_cases ht : truthy result = true

        · rw [if_pos ht]
          cases result <;> rfl
        · rw [if_neg ht]
          rfl

/-- The optimistic write itself: when the device is present in the store,
the post-write store carries its snapshot with `target_temperature`
assigned, whatever the command later does. -/
theorem set_temperature_after_write (store : Store) (did : Py) (snap : PyDict)
    (t : Py) (apiP apiA : Bool) (cmd : Except PyExc Py)
    (hfound : storeGet store did = some snap) :
    (async_set_temperature store did (some t) apiP apiA cmd).storeAfterWrite
      = storeSet store did (dSet snap "target_temperature" t) := by
  unfold async_set_temperature
  simp only [hfound]
  cases hapi : (apiP && apiA)
  · simp
  · rcases cmd with e | result
    · simp
    · simp only [Bool.true_eq, if_pos rfl]
      by_cases ht : truthy result = true
      · rw [if_pos ht]
        cases result <;> rfl
      · rw [if_neg ht]
        rfl

/-- C4 counterexample. With the command failing (`async_send_command`
returned `None`), the snapshot still holds `target_temperature = 50` when
`async_set_temperature` finishes: the claimed rollback does not happen. -/
theorem set_temperature_no_rollback_counterexample :
    (async_set_temperature
        [(.pstr "dev1", [("deviceId", .pstr "dev1"), ("waterTemp", .pstr "42")])]
        (.pstr "dev1") (some (.pfloat 50)) true true (.ok .pnone)).commandSucceeded
      = false ∧
    storeGet (async_set_temperature
        [(.pstr "dev1", [("deviceId", .pstr "dev1"), ("waterTemp", .pstr "42")])]
        (.pstr "dev1") (some (.pfloat 50)) true true (.ok .pnone)).storeFinal
        (.pstr "dev1")
      = some [("deviceId", .pstr "dev1"), ("waterTemp", .pstr "42"),
              ("target_temperature", .pfloat 50)] :=
  ⟨rfl, rfl⟩

/-- C4 as amended. Setting the temperature writes the overlay key
`target_temperature` into the device snapshot immediately, before the
vendor command resolves — and the overlay is never removed afterwards: on
a raised command exception or a non-success response the final store still
equals the post-write store, so the displayed value does not revert until
the next refresh replaces the snapshot. -/
theorem set_temperature_overlay_persists (store : Store) (did : Py)
    (snap : PyDict) (t : Py) (apiP apiA : Bool) (cmd : Except PyExc Py)
    (hfound : storeGet store did = some snap) :
    storeGet (async_set_temperature store did (some t) apiP apiA
        cmd).storeAfterWrite did
      = some (dSet snap "target_temperature" t) ∧
    (async_set_temperature store did (some t) apiP apiA cmd).storeFinal
      = (async_set_temperature store did (some t) apiP apiA cmd).storeAfterWrite := by
  constructor
  · rw [set_temperature_after_write store did snap t apiP apiA cmd hfound]
    exact storeGet_storeSet_of_found store did _ snap hfound
  · exact set_temperature_final_eq_after store did (some t) apiP apiA cmd

/-- C4 witness: a concrete device snapshot, temperature 50 and a failed
command. -/
theorem set_temperature_overlay_persists_witness :
    storeGet (async_set_temperature [(.pstr "dev1", [("deviceId", .pstr "dev1")])]
        (.pstr "dev1") (some (.pfloat 50)) true true (.ok .pnone)).storeAfterWrite
        (.pstr "dev1")
      = some (dSet [("deviceId", .pstr "dev1")] "target_temperature" (.pfloat 50)) ∧
    (async_set_temperature [(.pstr "dev1", [("deviceId", .pstr "dev1")])]
        (.pstr "dev1") (some (.pfloat 50)) true true (.ok .pnone)).storeFinal
      = (async_set_temperature [(.pstr "dev1", [("deviceId", .pstr "dev1")])]
        (.pstr "dev1") (some (.pfloat 50)) true true (.ok .pnone)).storeAfterWrite :=
  set_temperature_overlay_persists _ _ _ _ _ _ _ rfl

theorem dGet_cons (k0 : String) (v0 : Py) (rest : PyDict) (k : String) :
    dGet ((k0, v0) :: rest) k = if k0 = k then v0 else dGet rest k := by
  unfold dGet
  by_cases h : k0 = k
  · simp [List.find?_cons, h]
  · simp [List.find?_cons, h]

theorem hasKey_cons (k0 : String) (v0 : Py) (rest : PyDict) (k : String) :
    hasKey ((k0, v0) :: rest) k = (decide (k0 = k) || hasKey rest k) := by
  simp [hasKey]

theorem dGet_mergeMap_of_hasKey (b a rest : PyDict) (k : String)
    (h : hasKey a k = true) :
    dGet (a.map (fun kv => (kv.1, if hasKey b kv.1 then dGet b kv.1 else kv.2))
        ++ rest) k
      = if hasKey b k then dGet b k else dGet a k := by
  induction a with
  | nil => exact absurd h (by simp [hasKey])
  | cons kv0 a2 ih =>
    obtain ⟨k0, v0⟩ := kv0
    rw [List.map_cons, List.cons_append, dGet_cons]
    by_cases hk : k0 = k
    · subst hk
      rw [if_pos rfl, dGet_cons, if_pos rfl]
    · rw [hasKey_cons] at h
      simp [hk] at h
      rw [if_neg hk, ih h, dGet_cons, if_neg hk]

theorem dGet_mergeMap_of_not_hasKey (b a rest : PyDict) (k : String)
    (h : hasKey a k = false) :
    dGet (a.map (fun kv => (kv.1, if hasKey b kv.1 then dGet b kv.1 else kv.2))
        ++ rest) k
      = dGet rest k := by
  induction a with
  | nil => simp
  | cons kv0 a2 ih =>
    obtain ⟨k0, v0⟩ := kv0
    rw [hasKey_cons] at h
    simp only [Bool.or_eq_false_iff, decide_eq_false_iff_not] at h
    rw [List.map_cons, List.cons_append, dGet_cons, if_neg h.1, ih h.2]

theorem dGet_filter_keep (a b : PyDict) (k : String)
    (hb : hasKey b k = true) (ha : hasKey a k = false) :
    dGet (b.filter (fun kv => !hasKey a kv.1)) k = dGet b k := by
  induction b with
  | nil => exact absurd hb (by simp [hasKey])
  | cons kv0 b2 ih =>
    obtain ⟨k0, w0⟩ := kv0
    by_cases hk : k0 = k
    · subst hk
      have hg : (fun kv => !hasKey a kv.1) ((k0, w0)) = true := by simp [ha]
      rw [List.filter_cons, if_pos hg, dGet_cons, if_pos rfl, dGet_cons, if_pos rfl]
    · rw [hasKey_cons] at hb
      simp [hk] at hb
      rw [dGet_cons, if_neg hk]
      by_cases hg : (fun kv => !hasKey a kv.1) ((k0, w0)) = true
      · rw [List.filter_cons, if_pos hg, dGet_cons, if_neg hk, ih hb]
      · rw [List.filter_cons, if_neg hg, ih hb]

/-- On key collision the merged snapshot takes the value from the status dict:
`{**device, **status}` lets `status` win. -/
theorem dGet_mergeDicts_of_right (a b : PyDict) (k : String)
    (h : hasKey b k = true) :
    dGet (mergeDicts a b) k = dGet b k := by
  unfold mergeDicts
  by_cases ha : hasKey a k = true
  · rw [dGet_mergeMap_of_hasKey b a _ k ha, if_pos h]
  · have ha2 : hasKey a k = false := by
      cases hh : hasKey a k
      · rfl
      · exact absurd hh ha
    rw [dGet_mergeMap_of_not_hasKey b a _ k ha2, dGet_filter_keep a b k h ha2]

/-- C7. In a refresh cycle whose device list returned records A and B
(each a dict with a truthy `deviceId`, distinct ids), where the status
fetch of A timed out or raised and that of B returned a truthy status dict,
the aggregate map contains the bare record of A and the record of B merged with
its status — with status fields winning on key collision — and the cycle
returns normally, no exception reaching the scheduler. -/
theorem update_data_partial_failure_resilience
    (dA dB sB : PyDict) (idA idB : Py) (fetch : Py → StatusFetch)
    (hA : dGet dA "deviceId" = idA) (htA : truthy idA = true)
    (hB : dGet dB "deviceId" = idB) (htB : truthy idB = true)
    (hne : pyBeq idA idB = false)
    (hfail : fetch idA = .timeout ∨ ∃ e, fetch idA = .exc e)
    (hok : fetch idB = .value (.pdict sB)) (hsB : sB ≠ []) :
    async_update_data [.pdict dA, .pdict dB] fetch
      = .ok [(idA, dA), (idB, mergeDicts dB sB)] ∧
    (∀ k, hasKey sB k = true → dGet (mergeDicts dB sB) k = dGet sB k) := by
  constructor
  · have h1 : processDevice fetch [] (.pdict dA) = .ok [(idA, dA)] := by
      unfold processDevice
      simp only [hA, htA, if_true]
      rcases hfail with hf | ⟨e, hf⟩ <;> rw [hf] <;> rfl
    have h2 : processDevice fetch [(idA, dA)] (.pdict dB)
        = .ok [(idA, dA), (idB, mergeDicts dB sB)] := by
      unfold processDevice
      simp only [hB, htB, if_true, hok]
      have hsb : truthy (.pdict sB) = true := by
        cases sB
        · exact absurd rfl hsB
        · rfl
      rw [if_pos hsb]
      unfold storeSet
      have hany : [(idA, dA)].any (storeKeyMatch idB) = false := by
        simp [storeKeyMatch, hne]
      rw [if_neg (by simp [hany])]
      rfl
    unfold async_update_data
    rw [show List.foldlM (processDevice fetch) ([] : Store)
          [Py.pdict dA, Py.pdict dB]
        = .ok [(idA, dA), (idB, mergeDicts dB sB)] from by
      simp only [List.foldlM_cons, List.foldlM_nil, h1]
      simpa [Except.bind] using h2]
  · intro k hk
    exact dGet_mergeDicts_of_right dB sB k hk

/-- C7 witness: device A times out, device B succeeds with a status that
collides with the record of B on `productName`. -/
theorem update_data_partial_failure_witness :
    async_update_data
        [.pdict [("deviceId", .pstr "A"), ("productName", .pstr "WH-A")],
         .pdict [("deviceId", .pstr "B"), ("productName", .pstr "WH-B")]]
        (fun did => if pyBeq did (.pstr "A") then .timeout
          else .value (.pdict [("productName", .pstr "from-status"),
                               ("waterTemp", .pstr "45")]))
      = .ok [(.pstr "A", [("deviceId", .pstr "A"), ("productName", .pstr "WH-A")]),
             (.pstr "B", mergeDicts
                [("deviceId", .pstr "B"), ("productName", .pstr "WH-B")]
                [("productName", .pstr "from-status"), ("waterTemp", .pstr "45")])] ∧
    (∀ k, hasKey [("productName", .pstr "from-status"),
                  ("waterTemp", .pstr "45")] k = true →
       dGet (mergeDicts [("deviceId", .pstr "B"), ("productName", .pstr "WH-B")]
           [("productName", .pstr "from-status"), ("waterTemp", .pstr "45")]) k
         = dGet [("productName", .pstr "from-status"),
                 ("waterTemp", .pstr "45")] k) :=
  update_data_partial_failure_resilience _ _ _ _ _ _
    rfl rfl rfl rfl rfl (Or.inl rfl) rfl (List.cons_ne_nil _ _)

/-- On shape-safe rooms the fallback loop of api.py collects exactly the
`deviceList` contents of the rooms, from any accumulator. -/
theorem roomLoop_eq_spec (rooms : List Py) (h : roomsShapeOk rooms = true) :
    ∀ acc, roomLoop acc rooms = .ok (rooms.foldl specRoomStep acc) := by
  induction rooms with
  | nil => intro acc; rfl
  | cons room rest ih =>
    unfold roomsShapeOk at h
    rw [List.all_cons, Bool.and_eq_true] at h
    obtain ⟨hr, hrest⟩ := h
    have ihr := ih hrest
    intro acc
    match room with
    | .pdict r =>
      unfold roomLoop
      simp only [pyContainsStr]
      by_cases hdl : hasKey r "deviceList" = true
      · rw [if_pos hdl]
        have hr2 : (!hasKey r "deviceList" ||
            (match dGet r "deviceList" with
             | Py.plist _ => true
             | _ => false)) = true := hr
        rw [hdl] at hr2
        simp only [Bool.not_true, Bool.false_or] at hr2
        cases hds : dGet r "deviceList" with
        | plist ds =>
          simp only [pySubscriptStr, hds, pyExtend, List.foldl_cons, specRoomStep,
            hdl, if_true, ihr (acc ++ ds)]
        | pnone => rw [hds] at hr2; exact Bool.noConfusion hr2
        | pbool b => rw [hds] at hr2; exact Bool.noConfusion hr2
        | pint n => rw [hds] at hr2; exact Bool.noConfusion hr2
        | pfloat q => rw [hds] at hr2; exact Bool.noConfusion hr2
        | pnan => rw [hds] at hr2; exact Bool.noConfusion hr2
        | pinf => rw [hds] at hr2; exact Bool.noConfusion hr2
        | pninf => rw [hds] at hr2; exact Bool.noConfusion hr2
        | pstr s => rw [hds] at hr2; exact Bool.noConfusion hr2
        | pdict kvs => rw [hds] at hr2; exact Bool.noConfusion hr2
      · rw [if_neg hdl]
        have hdlf : hasKey r "deviceList" = false := by
          cases hh : hasKey r "deviceList"
          · rfl
          · exact absurd hh hdl
        simp only [List.foldl_cons, specRoomStep, hdlf, if_false, ihr acc]
        rfl

/-- C8. Device-list extraction: when the flat `devInfoItemInfoList` is
present and non-empty its devices are used and room-nested devices are
ignored even when present; when it is absent or empty, the `deviceList`
contents nested under `roomInfoItemInfoList` are returned instead. -/
theorem device_list_primary_and_room_fallback :
    (∀ (d : PyDict) (xs : List Py),
       dGet d "devInfoItemInfoList" = .plist xs → xs ≠ [] →
       get_devices_from_info (.pdict d) = .ok xs) ∧
    (∀ (d : PyDict) (rooms : List Py),
       (hasKey d "devInfoItemInfoList" = false ∨
         dGet d "devInfoItemInfoList" = .plist []) →
       dGet d "roomInfoItemInfoList" = .plist rooms →
       roomsShapeOk rooms = true →
       get_devices_from_info (.pdict d) = .ok (specRoomDevices rooms)) := by
  constructor
  · intro d xs hprim hne
    have hkey : hasKey d "devInfoItemInfoList" = true :=
      hasKey_of_dGet_plist d _ xs hprim
    have hxe : xs.isEmpty = false := by
      cases xs
      · exact absurd rfl hne
      · rfl
    unfold get_devices_from_info
    simp only [pyContainsStr, hkey, if_true, pySubscriptStr, hprim, pyExtend,
      List.nil_append, hxe, Bool.false_and, if_false]
    rfl
  · intro d rooms hprim hrooms hshape
    have hkeyR : hasKey d "roomInfoItemInfoList" = true :=
      hasKey_of_dGet_plist d _ rooms hrooms
    rcases hprim with hno | hempty
    · have hred : get_devices_from_info (.pdict d) = roomLoop [] rooms := by
        unfold get_devices_from_info
        simp only [pyContainsStr, hno, hkeyR, pySubscriptStr, hrooms, pyIterElems]
        rfl
      rw [hred, roomLoop_eq_spec rooms hshape []]
      rfl
    · have hkey : hasKey d "devInfoItemInfoList" = true :=
        hasKey_of_dGet_plist d _ [] hempty
      have hred : get_devices_from_info (.pdict d) = roomLoop [] rooms := by
        unfold get_devices_from_info
        simp only [pyContainsStr, hkey, pySubscriptStr, hempty, pyExtend, hkeyR,
          pyIterElems, hrooms]
        rfl
      rw [hred, roomLoop_eq_spec rooms hshape []]
      rfl

/-- C8 witness: a response with a non-empty primary list (the room list is
ignored), and one with an empty primary list (the room devices win). -/
theorem device_list_fallback_witness :
    get_devices_from_info (.pdict
        [("devInfoItemInfoList", .plist [.pdict [("deviceId", .pstr "P")]]),
         ("roomInfoItemInfoList", .plist [.pdict [("deviceList",
            .plist [.pdict [("deviceId", .pstr "R")]])]])])
      = .ok [.pdict [("deviceId", .pstr "P")]] ∧
    get_devices_from_info (.pdict
        [("devInfoItemInfoList", .plist []),
         ("roomInfoItemInfoList", .plist [.pdict [("deviceList",
            .plist [.pdict [("deviceId", .pstr "R")]])]])])
      = .ok (specRoomDevices [.pdict [("deviceList",
            .plist [.pdict [("deviceId", .pstr "R")]])]]) :=
  ⟨device_list_primary_and_room_fallback.1 _ _ rfl (List.cons_ne_nil _ _),
   device_list_primary_and_room_fallback.2 _ _ (Or.inr rfl) rfl rfl⟩

/-- On scan-safe events the heater event scan returns `"heat"` exactly
when some event satisfies the heat condition, and cannot raise. -/
theorem currentOpScan_eq_spec (evs : List Py) (h : evs.all eventScanSafe = true) :
    currentOpScan evs = .ok (if evs.any specHeatEvent then "heat" else "off") := by
  induction evs with
  | nil => rfl
  | cons ev rest ih =>
    rw [List.all_cons, Bool.and_eq_true] at h
    obtain ⟨hev, hrest⟩ := h
    have ihr := ih hrest
    rw [List.any_cons]
    match ev with
    | .pdict e =>
      by_cases hpost : dGet e "identifier" = .pstr "post"
      · have hsafe2 : (match dGetD e "outputData" (.pdict []) with
            | Py.pdict o =>
              if pyBeq (dGet o "powerStatus") (.pstr "1")
                  && truthy (dGet o "waterTemp") then
                match pyFloat (dGet o "waterTemp") with
                | .ok _ => true
                | .error _ => false
              else true
            | _ => false) = true := hev
        have hse : specHeatEvent (.pdict e)
            = ((match dGet e "identifier" with
                | Py.pstr "post" => true
                | _ => false) &&
               (match dGetD e "outputData" (.pdict []) with
                | Py.pdict o =>
                  pyBeq (dGet o "powerStatus") (.pstr "1")
                    && truthy (dGet o "waterTemp")
                    && (match pyFloat (dGet o "waterTemp") with
                        | .ok fv => gtZero fv
                        | .error _ => false)
                | _ => false)) := rfl
        rw [hpost] at hse
        simp only [Bool.true_and] at hse
        cases hod : dGetD e "outputData" (.pdict []) with
        | pdict o =>
          simp only [hod] at hsafe2 hse
          simp only [currentOpScan, hpost, hod]
          by_cases hc : (pyBeq (dGet o "powerStatus") (.pstr "1")
              && truthy (dGet o "waterTemp")) = true
          · rw [if_pos hc] at hsafe2 ⊢
            cases hq : pyFloat (dGet o "waterTemp") with
            | error err => rw [hq] at hsafe2; exact Bool.noConfusion hsafe2
            | ok fv =>
              have hab := hc
              rw [Bool.and_eq_true] at hab
              cases hgt : gtZero fv with
              | true =>
                have hT : specHeatEvent (.pdict e) = true := by
                  rw [hse]
                  simp [hab.1, hab.2, hq, hgt]
                rw [hT, Bool.true_or, if_pos rfl]
                simp [hgt]
              | false =>
                have hF : specHeatEvent (.pdict e) = false := by
                  rw [hse]
                  simp [hab.1, hab.2, hq, hgt]
                rw [hF, Bool.false_or, ← ihr]
                simp [hgt]
          · rw [if_neg hc]
            have : specHeatEvent (.pdict e) = false := by
              rw [hse]
              rcases hb : pyBeq (dGet o "powerStatus") (.pstr "1") with _ | _
              · simp
              · rcases ht : truthy (dGet o "waterTemp") with _ | _
                · simp [ht]
                · exact absurd (by simp [hb, ht]) hc
            rw [this, Bool.false_or, ihr]
        | pnone => rw [hod] at hsafe2; exact Bool.noConfusion hsafe2
        | pbool b => rw [hod] at hsafe2; exact Bool.noConfusion hsafe2
        | pint n => rw [hod] at hsafe2; exact Bool.noConfusion hsafe2
        | pfloat q => rw [hod] at hsafe2; exact Bool.noConfusion hsafe2
        | pnan => rw [hod] at hsafe2; exact Bool.noConfusion hsafe2
        | pinf => rw [hod] at hsafe2; exact Bool.noConfusion hsafe2
        | pninf => rw [hod] at hsafe2; exact Bool.noConfusion hsafe2
        | pstr s => rw [hod] at hsafe2; exact Bool.noConfusion hsafe2
        | plist xs => rw [hod] at hsafe2; exact Bool.noConfusion hsafe2
      · have hse : specHeatEvent (.pdict e) = false := by
          show ((match dGet e "identifier" with
                 | Py.pstr "post" => true
                 | _ => false) && _) = false
          have : (match dGet e "identifier" with
                  | Py.pstr "post" => true
                  | _ => false) = false := by
            split
            · rename_i heq
              exact absurd heq hpost
            · rfl
          rw [this, Bool.false_and]
        rw [hse, Bool.false_or, ← ihr]
        simp only [currentOpScan]

/-- C9 counterexample. A snapshot whose decoded `outputData` is exactly
`powerStatus = "1"` (no `waterTemp`): the claim says `current_operation`
is `"heat"`, but the code also requires a positive `waterTemp` and
returns `"off"`. -/
theorem current_operation_power_on_without_watertemp :
    extract_output_data [("statusInfo", .pstr
        "\x7b\"events\":[\x7b\"identifier\":\"post\",\"outputData\":\x7b\"powerStatus\":\"1\"\x7d\x7d]\x7d")]
      = .ok [("powerStatus", .pstr "1")] ∧
    current_operation [("statusInfo", .pstr
        "\x7b\"events\":[\x7b\"identifier\":\"post\",\"outputData\":\x7b\"powerStatus\":\"1\"\x7d\x7d]\x7d")]
      = "off" :=
  ⟨rfl, rfl⟩

/-- C9 as amended. For a snapshot whose `statusInfo` is a string parsing
to a JSON object with scan-safe events, `current_operation` returns
`"heat"` exactly when the `outputData` of some `"post"` event has
`powerStatus == "1"` together with a truthy `waterTemp` reading as a
number greater than zero — `powerStatus` alone does not decide the mode;
and it returns `"off"` whenever `statusInfo` is absent or malformed: when
it is falsy, when it is a string `json.loads` rejects, when it is a truthy
non-string (`json.loads` raises `TypeError`), and when it parses to a
non-object (`data.get` raises `AttributeError`) — the `except` turns each
of those into `"off"`. -/
theorem current_operation_heat_requires_positive_watertemp
    (dd : PyDict) (s : String) (d : PyDict) (evs : List Py)
    (hsi : dGet dd "statusInfo" = .pstr s)
    (hparse : jsonLoads s = some (.pdict d))
    (hevents : dGetD d "events" (.plist []) = .plist evs)
    (hsafe : evs.all eventScanSafe = true) :
    (current_operation dd
      = (if evs.any specHeatEvent then "heat" else "off")) ∧
    (∀ dd2 : PyDict, truthy (dGet dd2 "statusInfo") = false →
       current_operation dd2 = "off") ∧
    (∀ (dd2 : PyDict) (s2 : String), dGet dd2 "statusInfo" = .pstr s2 →
       jsonLoads s2 = none → current_operation dd2 = "off") ∧
    (∀ dd2 : PyDict, (∀ s2 : String, dGet dd2 "statusInfo" ≠ .pstr s2) →
       current_operation dd2 = "off") ∧
    (∀ (dd2 : PyDict) (s2 : String) (v : Py), dGet dd2 "statusInfo" = .pstr s2 →
       jsonLoads s2 = some v → (∀ p : PyDict, v ≠ .pdict p) →
       current_operation dd2 = "off") := by
  refine ⟨?_, ?_, ?_, ?_, ?_⟩
  · have hs : s ≠ "" := by
      intro he
      subst he
      rw [show jsonLoads "" = none from rfl] at hparse
      exact Option.noConfusion hparse
    unfold current_operation
    rw [hsi]
    have hne : (s != "") = true := by simp [hs]
    simp only [truthy, hne, Bool.not_true, if_false, hparse, hevents,
      pyIterElems, currentOpScan_eq_spec evs hsafe]
    rfl
  · intro dd2 h
    simp [current_operation, h]
  · intro dd2 s2 hsi2 hj2
    by_cases hs2 : s2 = ""
    · subst hs2
      unfold current_operation
      rw [hsi2]
      rfl
    · unfold current_operation
      rw [hsi2]
      have hne2 : (s2 != "") = true := by simp [hs2]
      simp only [truthy, hne2, Bool.not_true, if_false, hj2]
      rfl
  · intro dd2 hnp
    unfold current_operation
    cases hv : dGet dd2 "statusInfo" with
    | pstr s2 => exact absurd hv (hnp s2)
    | pnone => rfl
    | pbool b => cases b <;> rfl
    | pint n =>
      by_cases hz : n = 0
      · subst hz
        rfl
      · simp only [truthy]
        have : (n != 0) = true := by simp [hz]
        rw [this]
        rfl
    | pfloat q =>
      by_cases hz : q = 0
      · subst hz
        rfl
      · simp only [truthy]
        have : (q != 0) = true := by simp [hz]
        rw [this]
        rfl
    | pnan => rfl
    | pinf => rfl
    | pninf => rfl
    | plist xs =>
      cases xs with
      | nil => rfl
      | cons a t => rfl
    | pdict kvs =>
      cases kvs with
      | nil => rfl
      | cons a t => rfl
  · intro dd2 s2 v hsi2 hj2 hnd
    have hs2 : s2 ≠ "" := by
      intro he
      subst he
      rw [show jsonLoads "" = none from rfl] at hj2
      exact Option.noConfusion hj2
    unfold current_operation
    rw [hsi2]
    have hne2 : (s2 != "") = true := by simp [hs2]
    simp only [truthy, hne2, Bool.not_true, if_false, hj2]
    cases v with
    | pdict p => exact absurd rfl (hnd p)
    | pnone => rfl
    | pbool b => rfl
    | pint n => rfl
    | pfloat q => rfl
    | pnan => rfl
    | pinf => rfl
    | pninf => rfl
    | pstr s3 => rfl
    | plist xs => rfl

/-- C9 witness: `powerStatus = "1"` with `waterTemp = "45"` yields
`"heat"`. -/
theorem current_operation_heat_witness :
    current_operation [("statusInfo", .pstr
        "\x7b\"events\":[\x7b\"identifier\":\"post\",\"outputData\":\x7b\"powerStatus\":\"1\",\"waterTemp\":\"45\"\x7d\x7d]\x7d")]
      = (if [Py.pdict [("identifier", .pstr "post"),
              ("outputData", .pdict [("powerStatus", .pstr "1"),
                ("waterTemp", .pstr "45")])]].any specHeatEvent
         then "heat" else "off") :=
  (current_operation_heat_requires_positive_watertemp
    [("statusInfo", .pstr
        "\x7b\"events\":[\x7b\"identifier\":\"post\",\"outputData\":\x7b\"powerStatus\":\"1\",\"waterTemp\":\"45\"\x7d\x7d]\x7d")]
    "\x7b\"events\":[\x7b\"identifier\":\"post\",\"outputData\":\x7b\"powerStatus\":\"1\",\"waterTemp\":\"45\"\x7d\x7d]\x7d"
    [("events", .plist [.pdict [("identifier", .pstr "post"),
        ("outputData", .pdict [("powerStatus", .pstr "1"),
          ("waterTemp", .pstr "45")])]])]
    [.pdict [("identifier", .pstr "post"),
        ("outputData", .pdict [("powerStatus", .pstr "1"),
          ("waterTemp", .pstr "45")])]]
    rfl rfl rfl rfl).1

/-- C10. For every call to `async_get_devices`, `async_get_device_status`
or `async_send_command` made while the HTTP session is not open, the
operation raises `Exception("API not authenticated")` instead of degrading
to an empty list or `None`. -/
theorem api_operations_require_open_session (r : HttpResult) :
    async_get_devices false r = .error (.exception "API not authenticated") ∧
    async_get_device_status false r = .error (.exception "API not authenticated") ∧
    async_send_command false r = .error (.exception "API not authenticated") := by
  refine ⟨rfl, rfl, rfl⟩

/-- C6. `async_get_device_status` returns the `info` object on success and
`None` on HTTP, JSON-parse and application-status failures — but on a
timeout the claim fails on the code: evaluating the
`except asyncio.TimeoutError:` clause raises
`NameError` (the name asyncio is not defined), because api.py never imports
asyncio, so a timeout raises past the client boundary instead of
returning `None`. -/
theorem get_device_status_error_paths :
    async_get_device_status true
        (.resp 200 "\x7b\"status\":200,\"info\":\x7b\"deviceId\":\"A\"\x7d\x7d")
      = .ok (.pdict [("deviceId", .pstr "A")]) ∧
    async_get_device_status true (.resp 404 "gone") = .ok .pnone ∧
    async_get_device_status true (.resp 200 "not json") = .ok .pnone ∧
    async_get_device_status true (.resp 200 "\x7b\"status\":500\x7d") = .ok .pnone ∧
    async_get_device_status true .timeout = .error .nameErrorAsyncio := by
  refine ⟨rfl, rfl, rfl, rfl, rfl⟩

/-- C5 counterexample. On an HTTP failure (status 500) `async_get_devices`
does not return an empty list: the failure is re-raised inside the `try`
and the broken `except asyncio.TimeoutError:` clause turns it into a
raised `NameError`. -/
theorem get_devices_http_error_counterexample :
    async_get_devices true (.resp 500 "boom") = .error .nameErrorAsyncio := rfl

/-- C5 as amended. On an HTTP failure or an application status other than
200, `async_get_devices` raises (a `NameError`, since the failure is
re-raised into except clauses that reference the never-imported asyncio
module) rather than returning an empty list. -/
theorem get_devices_raises_on_failure :
    (∀ status body, status ≠ 200 →
       async_get_devices true (.resp status body) = .error .nameErrorAsyncio) ∧
    (∀ body d, jsonLoads body = some (.pdict d) → appStatusOk d = false →
       async_get_devices true (.resp 200 body) = .error .nameErrorAsyncio) := by
  constructor
  · intro status body hstatus
    simp only [async_get_devices, Bool.not_true, Bool.false_eq_true, if_false,
      if_neg hstatus]
  · intro body d hparse hstatus
    simp only [async_get_devices, Bool.not_true, Bool.false_eq_true, if_false,
      if_pos rfl, hparse, hstatus]
    rfl

/-- C5 witness: both failure shapes at concrete inputs. -/
theorem get_devices_raises_on_failure_witness :
    async_get_devices true (.resp 503 "oops") = .error .nameErrorAsyncio ∧
    async_get_devices true (.resp 200 "\x7b\"status\":401,\"msg\":\"denied\"\x7d")
      = .error .nameErrorAsyncio := by
  constructor
  · exact get_devices_raises_on_failure.1 503 "oops" (by decide)
  · exact get_devices_raises_on_failure.2 "\x7b\"status\":401,\"msg\":\"denied\"\x7d"
      [("status", .pint 401), ("msg", .pstr "denied")] rfl rfl

end AOSmith
